import Mathlib

/-!
Verification of the static-analysis toolset of an automated documentation
generator (code structure analyzer, architecture pattern detector, dependency
mapper, quality checker).  Python strings are embedded as `List Char`; machine
floats are embedded as exact rationals (`ℚ`); Python dicts keyed by strings are
embedded as association lists in insertion order; fallible operations return
`Option`/sum types.  Each analyzer's functions are translated one-to-one from
the repository sources (`tools/code_analyzer.py`, `tools/dependency_mapper.py`,
`tools/architecture/…`, `tools/quality_checker.py`).
-/

/-- Python strings are embedded as lists of characters. -/
abbrev Str := List Char

/-- Python whitespace for `str.strip` / regex `\s` (space, tab, LF, CR, VT, FF). -/
def isPySpace (c : Char) : Bool :=
  c = ' ' || c = '\t' || c = '\n' || c = '\r' || c = '\x0b' || c = '\x0c'

/-- Python regex `\w`: letters, digits, underscore. -/
def isWordChar (c : Char) : Bool := c.isAlphanum || c = '_'

/-- Python `str.strip()`: drop whitespace from both ends. -/
def pyStrip (s : Str) : Str :=
  ((s.dropWhile isPySpace).reverse.dropWhile isPySpace).reverse

/-- Python `content.split('\n')` (returns `[""]` on the empty string). -/
def splitLines : Str → List Str
  | [] => [[]]
  | c :: cs =>
    if c = '\n' then [] :: splitLines cs
    else
      match splitLines cs with
      | h :: t => (c :: h) :: t
      | [] => [[c]]

/-- Python `'\n'.join(lines)`. -/
def joinLines (ls : List Str) : Str := (ls.intersperse ['\n']).flatten

/-- Python `sep in s` (substring containment). -/
def containsSub (needle hay : Str) : Bool := decide (needle <:+: hay)

/-- Python `str.lower()` (character-wise lowering). -/
def pyLower (s : Str) : Str := s.map Char.toLower

namespace CodeAnalyzer

/-- The `stats` record of `CodeAnalyzerTool._get_basic_stats`. -/
structure BasicStats where
  totalLines : Nat
  codeLines : Nat
  blankLines : Nat
  commentLines : Nat
  characters : Nat
  deriving Repr, DecidableEq

/-- A line counts as code: non-blank after stripping and not starting with `#`. -/
def isCodeLine (l : Str) : Bool :=
  !(pyStrip l).isEmpty && !(['#'].isPrefixOf (pyStrip l))

/-- A line counts as blank: empty after stripping. -/
def isBlankLine (l : Str) : Bool := (pyStrip l).isEmpty

/-- A line counts as comment: starts with `#` after stripping. -/
def isCommentLine (l : Str) : Bool := ['#'].isPrefixOf (pyStrip l)

/-- `CodeAnalyzerTool._get_basic_stats`. -/
def getBasicStats (code : Str) : BasicStats :=
  let lines := splitLines code
  { totalLines := lines.length
    codeLines := lines.countP (fun l => isCodeLine l)
    blankLines := lines.countP (fun l => isBlankLine l)
    commentLines := lines.countP (fun l => isCommentLine l)
    characters := code.length }

end CodeAnalyzer

section BasicStatsFacts

open CodeAnalyzer

theorem splitLines_ne_nil (s : Str) : splitLines s ≠ [] := by
  match s with
  | [] => simp [splitLines]
  | c :: cs =>
    rw [splitLines]
    by_cases h : c = '\n'
    · simp [h]
    · simp only [h, if_false]
      cases hs : splitLines cs with
      | nil => simp
      | cons a t => simp

theorem line_partition (l : Str) :
    (if isBlankLine l then 1 else 0) + (if isCommentLine l then 1 else 0) +
      (if isCodeLine l then 1 else 0) = 1 := by
  unfold isBlankLine isCommentLine isCodeLine
  cases he : (pyStrip l).isEmpty
  · cases hp : ['#'].isPrefixOf (pyStrip l) <;> simp [he, hp]
  · have : ['#'].isPrefixOf (pyStrip l) = false := by
      cases hs : pyStrip l with
      | nil => simp [List.isPrefixOf]
      | cons a t => simp [hs] at he
    simp [he, this]

theorem countP_partition (L : List Str) :
    L.countP (fun l => isBlankLine l) + L.countP (fun l => isCommentLine l) +
      L.countP (fun l => isCodeLine l) = L.length := by
  induction L with
  | nil => simp
  | cons l t ih =>
    have h := line_partition l
    simp only [List.countP_cons, List.length_cons]
    by_cases hb : isBlankLine l <;> by_cases hc : isCommentLine l <;>
      by_cases hd : isCodeLine l <;> simp [hb, hc, hd] at h ⊢ <;> omega

end BasicStatsFacts

/-! ## Python `round(x, 2)` on exact rationals (banker's rounding) -/

/-- Round to the nearest integer, ties to even (Python `round` semantics,
on exact rationals). -/
def pyRoundHalfEven (q : ℚ) : ℤ :=
  if q - ⌊q⌋ < 1/2 then ⌊q⌋
  else if 1/2 < q - ⌊q⌋ then ⌊q⌋ + 1
  else if ⌊q⌋ % 2 = 0 then ⌊q⌋ else ⌊q⌋ + 1

/-- Python `round(x, 2)` on exact rationals. -/
def pyRound2 (q : ℚ) : ℚ := (pyRoundHalfEven (q * 100) : ℚ) / 100

theorem floor_le_pyRoundHalfEven (q : ℚ) : ⌊q⌋ ≤ pyRoundHalfEven q := by
  unfold pyRoundHalfEven
  split_ifs <;> omega

theorem pyRoundHalfEven_le_floor_add_one (q : ℚ) : pyRoundHalfEven q ≤ ⌊q⌋ + 1 := by
  unfold pyRoundHalfEven
  split_ifs <;> omega

theorem pyRoundHalfEven_nonneg (q : ℚ) (h : 0 ≤ q) : 0 ≤ pyRoundHalfEven q := by
  have hfl : 0 ≤ ⌊q⌋ := Int.floor_nonneg.mpr h
  have := floor_le_pyRoundHalfEven q
  omega

theorem pyRoundHalfEven_le (q : ℚ) (h : q ≤ 10000) : pyRoundHalfEven q ≤ 10000 := by
  rcases eq_or_lt_of_le h with heq | hlt
  · subst heq
    have h1 : ((10000:ℚ) - ⌊(10000:ℚ)⌋) < 1/2 := by norm_num
    unfold pyRoundHalfEven
    rw [if_pos h1]
    norm_num
  · have hfl : ⌊q⌋ < 10000 := by
      have : ⌊q⌋ < ⌊(10000:ℚ)⌋ + 1 := by
        have h1 : ⌊q⌋ ≤ ⌊(10000:ℚ)⌋ := Int.floor_le_floor (le_of_lt hlt)
        omega
      have h2 : ⌊(10000:ℚ)⌋ = 10000 := by norm_num
      by_contra hc
      push_neg at hc
      have : (10000:ℚ) ≤ ⌊q⌋ := by exact_mod_cast hc
      have := Int.floor_le q
      linarith
    have := pyRoundHalfEven_le_floor_add_one q
    omega

theorem pyRound2_mem_Icc {q : ℚ} (h0 : 0 ≤ q) (h1 : q ≤ 100) :
    0 ≤ pyRound2 q ∧ pyRound2 q ≤ 100 := by
  unfold pyRound2
  have hq0 : 0 ≤ q * 100 := by positivity
  have hq1 : q * 100 ≤ 10000 := by linarith
  have ha := pyRoundHalfEven_nonneg _ hq0
  have hb := pyRoundHalfEven_le _ hq1
  constructor
  · positivity
  · rw [div_le_iff₀ (by norm_num : (0:ℚ) < 100)]
    calc (pyRoundHalfEven (q * 100) : ℚ) ≤ 10000 := by exact_mod_cast hb
    _ = 100 * 100 := by norm_num

/-! ## Python AST model (`ast` stdlib) used by `CodeAnalyzerTool._analyze_python`

The Python parser (`ast.parse`) is external stdlib; the analyzer consumes the
resulting tree.  We model the node shapes the analyzer inspects; expression
nodes that can appear as decorators / base classes are `PyExpr`.  Note that in
CPython `ast.AsyncFunctionDef` is a distinct class, not a subclass of
`ast.FunctionDef` — the model mirrors that with distinct constructors. -/

inductive PyExpr where
  | name (id : Str)
  | attribute (value : PyExpr) (attr : Str)
  | call (func : PyExpr) (args : List PyExpr)
  | constStr (s : Str)
  | otherExpr

/-- `ast.alias` (an imported symbol with optional `as` name). -/
structure PyAlias where
  name : Str
  asname : Option Str

inductive PyStmt where
  | functionDef (name : Str) (lineno : Nat) (args : List Str)
      (decoratorList : List PyExpr) (body : List PyStmt)
  | asyncFunctionDef (name : Str) (lineno : Nat) (args : List Str)
      (decoratorList : List PyExpr) (body : List PyStmt)
  | classDef (name : Str) (lineno : Nat) (bases : List PyExpr)
      (decoratorList : List PyExpr) (body : List PyStmt)
  | importStmt (lineno : Nat) (names : List PyAlias)
  | importFrom (lineno : Nat) (module : Option Str) (names : List PyAlias)
  | assign (lineno : Nat) (targets : List PyExpr)
  | exprStmt (lineno : Nat) (e : PyExpr)
  | otherStmt (children : List PyStmt)

namespace CodeAnalyzer

/-- `isinstance(node, ast.FunctionDef)` (false for `AsyncFunctionDef`:
in CPython `AsyncFunctionDef` is not a subclass of `FunctionDef`). -/
def isFunctionDef : PyStmt → Bool
  | .functionDef .. => true
  | _ => false

/-- `isinstance(node, ast.AsyncFunctionDef)`. -/
def isAsyncFunctionDef : PyStmt → Bool
  | .asyncFunctionDef .. => true
  | _ => false

/-- Statement children visited by `ast.walk`. -/
def stmtChildren : PyStmt → List PyStmt
  | .functionDef _ _ _ _ b => b
  | .asyncFunctionDef _ _ _ _ b => b
  | .classDef _ _ _ _ b => b
  | .otherStmt cs => cs
  | .importStmt _ _ => []
  | .importFrom _ _ _ => []
  | .assign _ _ => []
  | .exprStmt _ _ => []

mutual

/-- Structural size of one statement (termination measure for `walkAux`). -/
def stmtSize : PyStmt → Nat
  | .functionDef _ _ _ _ b => 1 + stmtListSize b
  | .asyncFunctionDef _ _ _ _ b => 1 + stmtListSize b
  | .classDef _ _ _ _ b => 1 + stmtListSize b
  | .importStmt _ _ => 1
  | .importFrom _ _ _ => 1
  | .assign _ _ => 1
  | .exprStmt _ _ => 1
  | .otherStmt cs => 1 + stmtListSize cs

/-- Structural size of a statement list. -/
def stmtListSize : List PyStmt → Nat
  | [] => 0
  | s :: rest => stmtSize s + stmtListSize rest

end

theorem stmtListSize_nil : stmtListSize [] = 0 := by rw [stmtListSize]

theorem stmtListSize_cons (s : PyStmt) (rest : List PyStmt) :
    stmtListSize (s :: rest) = stmtSize s + stmtListSize rest := by
  rw [stmtListSize]

theorem stmtListSize_append (a b : List PyStmt) :
    stmtListSize (a ++ b) = stmtListSize a + stmtListSize b := by
  induction a with
  | nil => simp [stmtListSize_nil]
  | cons x xs ih => simp [stmtListSize_cons, ih]; omega

theorem stmtListSize_children_lt (s : PyStmt) :
    stmtListSize (stmtChildren s) < stmtSize s := by
  cases s <;> simp [stmtChildren, stmtSize, stmtListSize_nil]

/-- `ast.walk`: breadth-first traversal yielding every node.  (Expression
nodes are also yielded by the stdlib walk, but none of them can satisfy the
statement `isinstance` tests the analyzer performs, so the statement-level
walk is the faithful projection.) -/
def walkAux : List PyStmt → List PyStmt
  | [] => []
  | n :: rest => n :: walkAux (rest ++ stmtChildren n)
termination_by q => stmtListSize q
decreasing_by
  rw [stmtListSize_append, stmtListSize_cons]
  have h1 := stmtListSize_children_lt s
  omega

def walk (tree : List PyStmt) : List PyStmt := walkAux tree

/-- `CodeAnalyzerTool._get_name`. -/
def getName : PyExpr → Str
  | .name id => id
  | .attribute v attr => getName v ++ ('.' :: attr)
  | _ => "unknown".toList

/-- `CodeAnalyzerTool._get_decorator_name`. -/
def getDecoratorName : PyExpr → Str
  | .name id => id
  | .call f _ => getName f
  | _ => "unknown".toList

/-- `ast.get_docstring` (stdlib): the first statement's string constant, if
any.  (The stdlib also normalises indentation of the returned text; that
normalisation is irrelevant here and is not modelled.) -/
def getDocstring : List PyStmt → Option Str
  | .exprStmt _ (.constStr s) :: _ => some s
  | _ => none

/-- Python `str.isupper()`: at least one cased character and no lowercase
cased character. -/
def pyIsUpper (s : Str) : Bool := s.any (fun c => c.isAlpha) && s.all (fun c => !c.isLower)

structure FuncInfo where
  name : Str
  line : Nat
  args : List Str
  docstring : Option Str
  isAsync : Bool
  decorators : List Str
  deriving Repr, DecidableEq

structure MethodInfo where
  name : Str
  line : Nat
  args : List Str
  isStatic : Bool
  isClassmethod : Bool
  deriving Repr, DecidableEq

structure ClassInfo where
  name : Str
  line : Nat
  bases : List Str
  docstring : Option Str
  methods : List MethodInfo
  decorators : List Str
  deriving Repr, DecidableEq

/-- One import record; `type_` is `"import"` (fields `module`, `alias`,
`line`) or `"from_import"` (fields `module`, `name`, `alias`, `line`). -/
structure ImportInfo where
  type_ : Str
  module : Option Str
  name : Option Str
  alias_ : Option Str
  line : Nat
  deriving Repr, DecidableEq

structure ConstantInfo where
  name : Str
  line : Nat
  deriving Repr, DecidableEq

structure PyStructure where
  functions : List FuncInfo
  classes : List ClassInfo
  imports : List ImportInfo
  constants : List ConstantInfo
  deriving Repr, DecidableEq

structure PyMetrics where
  totalFunctions : Nat
  totalClasses : Nat
  totalImports : Nat
  totalConstants : Nat
  avgFunctionLength : ℚ
  deriving Repr, DecidableEq

/-- Result record of `CodeAnalyzerTool._analyze_python`: on success the
structural fields are present, on a syntax error only `error` plus the basic
statistics are. -/
structure PyAnalysis where
  error : Option Str
  language : Str
  filePath : Str
  stats : BasicStats
  structureInfo : Option PyStructure
  metrics : Option PyMetrics

/-- `CodeAnalyzerTool._avg_function_length`.  `unparseLines f` models
`len(ast.unparse(f).split('\n'))` (the stdlib pretty-printer is external to
the repository and passed in as a parameter). -/
def avgFunctionLength (unparseLines : PyStmt → Nat) (tree : List PyStmt) : ℚ :=
  let functions := (walk tree).filter (fun n => isFunctionDef n)
  if functions.isEmpty then 0
  else
    let totalLines := (functions.map unparseLines).sum
    pyRound2 ((totalLines : ℚ) / (functions.length : ℚ))

/-- The body of the `ast.walk` loop of `_analyze_python`: dispatch one node
into the four accumulator lists. -/
def visitNode (node : PyStmt)
    (acc : List FuncInfo × List ClassInfo × List ImportInfo × List ConstantInfo) :
    List FuncInfo × List ClassInfo × List ImportInfo × List ConstantInfo :=
  let (functions, classes, imports, constants) := acc
  match node with
  | .functionDef name lineno args decoratorList body =>
    let funcInfo : FuncInfo :=
      { name := name
        line := lineno
        args := args
        docstring := getDocstring body
        isAsync := isAsyncFunctionDef node
        decorators := decoratorList.map getDecoratorName }
    (functions ++ [funcInfo], classes, imports, constants)
  | .classDef name lineno bases decoratorList body =>
    let methods := body.filterMap (fun m =>
      match m with
      | .functionDef mname mline margs mdecs _ =>
        some { name := mname
               line := mline
               args := margs
               isStatic := (mdecs.map getDecoratorName).any
                 (fun d => d = ("staticmethod".toList))
               isClassmethod := (mdecs.map getDecoratorName).any
                 (fun d => d = ("classmethod".toList)) }
      | _ => (none : Option MethodInfo))
    let classInfo : ClassInfo :=
      { name := name
        line := lineno
        bases := bases.map getName
        docstring := getDocstring body
        methods := methods
        decorators := decoratorList.map getDecoratorName }
    (functions, classes ++ [classInfo], imports, constants)
  | .importStmt lineno names =>
    let newImports := names.map (fun al =>
      ({ type_ := ("import".toList), module := some al.name, name := none
         alias_ := al.asname, line := lineno } : ImportInfo))
    (functions, classes, imports ++ newImports, constants)
  | .importFrom lineno module names =>
    let newImports := names.map (fun al =>
      ({ type_ := ("from_import".toList), module := module, name := some al.name
         alias_ := al.asname, line := lineno } : ImportInfo))
    (functions, classes, imports ++ newImports, constants)
  | .assign lineno targets =>
    let newConsts := targets.filterMap (fun t =>
      match t with
      | .name id => if pyIsUpper id then some ({ name := id, line := lineno } : ConstantInfo) else none
      | _ => none)
    (functions, classes, imports, constants ++ newConsts)
  | _ => (functions, classes, imports, constants)

/-- `CodeAnalyzerTool._analyze_python`.  `parsed` is the outcome of the
external `ast.parse(code)` (`Except` error = the `SyntaxError` message). -/
def analyzePython (unparseLines : PyStmt → Nat) (parsed : Except Str (List PyStmt))
    (code : Str) (filePath : Str) : PyAnalysis :=
  match parsed with
  | .error e =>
    { error := some (("Erro de sintaxe: ".toList) ++ e)
      language := ("python".toList)
      filePath := filePath
      stats := getBasicStats code
      structureInfo := none
      metrics := none }
  | .ok tree =>
    let (functions, classes, imports, constants) :=
      (walk tree).foldl (fun acc node => visitNode node acc) ([], [], [], [])
    { error := none
      language := ("python".toList)
      filePath := filePath
      stats := getBasicStats code
      structureInfo := some
        { functions := functions, classes := classes
          imports := imports, constants := constants }
      metrics := some
        { totalFunctions := functions.length
          totalClasses := classes.length
          totalImports := imports.length
          totalConstants := constants.length
          avgFunctionLength := avgFunctionLength unparseLines tree } }

end CodeAnalyzer

section CodeAnalyzerClaims

open CodeAnalyzer

/-- C10: for every input string, the basic statistics satisfy
`code_lines + blank_lines + comment_lines == total_lines` (the three
categories partition the lines exactly), and `total_lines ≥ 1` even for the
empty string. -/
theorem c10_line_stats_partition (code : Str) :
    (getBasicStats code).codeLines + (getBasicStats code).blankLines +
        (getBasicStats code).commentLines = (getBasicStats code).totalLines ∧
      1 ≤ (getBasicStats code).totalLines := by
  constructor
  · have h := countP_partition (splitLines code)
    simp only [getBasicStats]
    omega
  · have h := splitLines_ne_nil code
    simp only [getBasicStats]
    exact List.length_pos.mpr h

/-- C8: for every Python source text that fails to parse, `_analyze_python`
returns (instead of raising) a record holding the syntax-error description in
its `error` field together with the basic line/character statistics, and omits
the structural fields (`structure` and `metrics`). -/
theorem c8_parse_error_degrades (unparseLines : PyStmt → Nat) (e code filePath : Str) :
    (analyzePython unparseLines (.error e) code filePath).error
        = some (("Erro de sintaxe: ".toList) ++ e) ∧
      (analyzePython unparseLines (.error e) code filePath).stats = getBasicStats code ∧
      (analyzePython unparseLines (.error e) code filePath).language = ("python".toList) ∧
      (analyzePython unparseLines (.error e) code filePath).structureInfo = none ∧
      (analyzePython unparseLines (.error e) code filePath).metrics = none :=
  ⟨rfl, rfl, rfl, rfl, rfl⟩

/-- C3 (code defect): the analyzer records only `ast.FunctionDef` nodes; an
`async def` parses to `ast.AsyncFunctionDef`, which is not a subclass of
`ast.FunctionDef`, so async function definitions are omitted from the
`functions` list entirely — and for the functions that are recorded the
`is_async` flag is always `false`.  Evaluated here on the trees of
`async def f(): pass` and `def g(): pass`. -/
theorem c3_async_function_omitted :
    ((analyzePython (fun _ => 1)
          (.ok [PyStmt.asyncFunctionDef ("f".toList) 1 [] [] [PyStmt.otherStmt []]]) []
          []).structureInfo.map PyStructure.functions) = some [] ∧
      ((analyzePython (fun _ => 1)
          (.ok [PyStmt.functionDef ("g".toList) 1 [] [] [PyStmt.otherStmt []]]) []
          []).structureInfo.map PyStructure.functions)
        = some [{ name := ("g".toList), line := 1, args := [], docstring := none
                  isAsync := false, decorators := [] }] := by
  constructor <;>
    simp [analyzePython, walk, walkAux, stmtChildren, visitNode, isAsyncFunctionDef,
      getDocstring]

end CodeAnalyzerClaims

/-! ## Dependency mapper: `DependencyMapperTool._detect_circular_dependencies`

The dependency map (a Python dict from module identifier to list of
dependency identifiers) is embedded as an association list in insertion
order.  The recursive `dfs` closure is embedded with a fuel parameter
(Python's recursion is bounded by the visited-set guard); `path.index`
raising `ValueError` is the `valueError` outcome. -/

namespace DependencyMapper

/-- `dependency_map.get(node, [])`. -/
def getDeps (g : List (String × List String)) (node : String) : List String :=
  match g.find? (fun p => p.1 == node) with
  | some p => p.2
  | none => []

/-- The mutable closure state of `_detect_circular_dependencies`:
`visited`, `rec_stack` (sets) and the accumulated `circular` list. -/
structure DfsState where
  visited : List String
  recStack : List String
  circular : List (List String)
  deriving Repr, DecidableEq

/-- Outcome of one `dfs(node, path)` call: normal return with the boolean and
the updated closure state, a raised `ValueError` from `path.index`, or fuel
exhaustion (never reached for adequate fuel). -/
inductive DfsOutcome where
  | ok (found : Bool) (st : DfsState)
  | valueError
  | outOfFuel
  deriving Repr, DecidableEq

mutual

/-- `dfs(node, path)`: mark the node visited and on the recursion stack,
append it to the path, then iterate over its dependencies. -/
def dfsVisit (g : List (String × List String)) (fuel : Nat) (node : String)
    (path : List String) (st : DfsState) : DfsOutcome :=
  if fuel = 0 then .outOfFuel
  else
    let st1 : DfsState :=
      { visited := node :: st.visited
        recStack := node :: st.recStack
        circular := st.circular }
    dfsNeighbors g (fuel - 1) node (getDeps g node) (path ++ [node]) st1

/-- The `for neighbor in dependency_map.get(node, [])` loop of `dfs`.  On
loop exit the node is removed from the recursion stack and `False` is
returned; a `return True` propagates without that removal. -/
def dfsNeighbors (g : List (String × List String)) (fuel : Nat) (node : String)
    (neighbors : List String) (path : List String) (st : DfsState) : DfsOutcome :=
  match neighbors with
  | [] => .ok false { st with recStack := st.recStack.erase node }
  | neighbor :: rest =>
    if !st.visited.contains neighbor then
      match dfsVisit g fuel neighbor path st with
      | .ok true st' => .ok true st'
      | .ok false st' => dfsNeighbors g fuel node rest path st'
      | e => e
    else if st.recStack.contains neighbor then
      -- `path.index(neighbor)` raises ValueError when neighbor is not in path
      if path.contains neighbor then
        let cycleStart := path.indexOf neighbor
        let cycle := path.drop cycleStart ++ [neighbor]
        let circ := if st.circular.contains cycle then st.circular
                    else st.circular ++ [cycle]
        .ok true { st with circular := circ }
      else .valueError
    else dfsNeighbors g fuel node rest path st

end

/-- Outcome of the whole cycle detection. -/
inductive DetectOutcome where
  | ok (cycles : List (List String))
  | valueError
  | outOfFuel
  deriving Repr, DecidableEq

/-- The `for node in dependency_map` driver loop. -/
def detectLoop (g : List (String × List String)) (fuel : Nat) :
    List String → DfsState → DetectOutcome
  | [], st => .ok st.circular
  | node :: rest, st =>
    if st.visited.contains node then detectLoop g fuel rest st
    else
      match dfsVisit g fuel node [] st with
      | .ok _ st' => detectLoop g fuel rest st'
      | .valueError => .valueError
      | .outOfFuel => .outOfFuel

/-- Fuel that exceeds any possible recursion depth (the visited-set guard
bounds the depth by the number of distinct nodes of the graph). -/
def graphFuel (g : List (String × List String)) : Nat :=
  g.length + (g.map (fun p => p.2.length)).sum + 1

/-- `DependencyMapperTool._detect_circular_dependencies`. -/
def detectCircularDependencies (g : List (String × List String)) : DetectOutcome :=
  detectLoop g (graphFuel g) (g.map (fun p => p.1)) ⟨[], [], []⟩

/-- A recorded cycle is an ordered sequence that begins and ends at the same
node and contains at least two entries. -/
def wellFormedCycle (c : List String) : Prop := 2 ≤ c.length ∧ c.head? = c.getLast?

/-- All cycles accumulated so far are well formed. -/
def CyclesWF (st : DfsState) : Prop := ∀ c ∈ st.circular, wellFormedCycle c

theorem cycle_construction_wf {path : List String} {neighbor : String}
    (h : neighbor ∈ path) :
    wellFormedCycle (path.drop (path.indexOf neighbor) ++ [neighbor]) := by
  have hlt : path.indexOf neighbor < path.length := List.indexOf_lt_length.mpr h
  constructor
  · rw [List.length_append, List.length_drop]
    simp
    omega
  · have hne : path.drop (path.indexOf neighbor) ≠ [] := by
      intro hcon
      have := congrArg List.length hcon
      rw [List.length_drop] at this
      simp at this
      omega
    rw [List.getLast?_concat]
    rw [List.head?_append_of_ne_nil _ hne]
    rw [List.head?_drop]
    rw [List.getElem?_eq_getElem hlt]
    rw [List.getElem_indexOf hlt]

theorem dfs_preserves_cyclesWF (g : List (String × List String)) : ∀ fuel : Nat,
    (∀ node path st, CyclesWF st → ∀ b st',
        dfsVisit g fuel node path st = .ok b st' → CyclesWF st') ∧
      (∀ node nbrs path st, CyclesWF st → ∀ b st',
        dfsNeighbors g fuel node nbrs path st = .ok b st' → CyclesWF st') := by
  intro fuel
  induction fuel using Nat.strong_induction_on with
  | _ fuel ih =>
    have hV : ∀ node path st, CyclesWF st → ∀ b st',
        dfsVisit g fuel node path st = .ok b st' → CyclesWF st' := by
      intro node path st hst b st' h
      unfold dfsVisit at h
      by_cases hf : fuel = 0
      · simp [hf] at h
      · simp only [hf, if_false] at h
        have hst1 : CyclesWF ⟨node :: st.visited, node :: st.recStack, st.circular⟩ := hst
        exact (ih (fuel - 1) (by omega)).2 node (getDeps g node) (path ++ [node]) _
          hst1 b st' h
    refine ⟨hV, ?_⟩
    intro node nbrs
    induction nbrs with
    | nil =>
      intro path st hst b st' h
      unfold dfsNeighbors at h
      cases h
      exact hst
    | cons neighbor rest ihn =>
      intro path st hst b st' h
      unfold dfsNeighbors at h
      by_cases h1 : st.visited.contains neighbor
      · simp only [h1, Bool.not_true, Bool.false_eq_true, if_false] at h
        by_cases h2 : st.recStack.contains neighbor
        · simp only [h2, if_true] at h
          by_cases h3 : path.contains neighbor
          · simp only [h3, if_true] at h
            cases h
            intro c hc
            by_cases h4 : st.circular.contains
                (path.drop (path.indexOf neighbor) ++ [neighbor])
            · simp only [h4, if_true] at hc
              exact hst c hc
            · simp only [h4, if_false] at hc
              rcases List.mem_append.mp hc with hold | hnew
              · exact hst c hold
              · rw [List.mem_singleton.mp hnew]
                exact cycle_construction_wf (by simpa using h3)
          · simp only [h3, if_false] at h
            cases h
        · simp only [h2, if_false] at h
          exact ihn path st hst b st' h
      · simp only [h1, Bool.not_false, if_true] at h
        cases hdv : dfsVisit g fuel neighbor path st with
        | ok found stv =>
          have hstv : CyclesWF stv := hV neighbor path st hst found stv hdv
          cases found with
          | true =>
            rw [hdv] at h
            cases h
            exact hstv
          | false =>
            rw [hdv] at h
            exact ihn path stv hstv b st' h
        | valueError => rw [hdv] at h; cases h
        | outOfFuel => rw [hdv] at h; cases h

theorem detectLoop_preserves_cyclesWF (g : List (String × List String)) (fuel : Nat) :
    ∀ nodes st, CyclesWF st → ∀ cycles,
      detectLoop g fuel nodes st = .ok cycles → ∀ c ∈ cycles, wellFormedCycle c := by
  intro nodes
  induction nodes with
  | nil =>
    intro st hst cycles h
    unfold detectLoop at h
    cases h
    exact hst
  | cons node rest ihn =>
    intro st hst cycles h
    unfold detectLoop at h
    by_cases h1 : st.visited.contains node
    · simp only [h1, if_true] at h
      exact ihn st hst cycles h
    · simp only [h1, if_false] at h
      cases hdv : dfsVisit g fuel node [] st with
      | ok found stv =>
        rw [hdv] at h
        have hstv : CyclesWF stv :=
          (dfs_preserves_cyclesWF g fuel).1 node [] st hst found stv hdv
        exact ihn stv hstv cycles h
      | valueError => rw [hdv] at h; cases h
      | outOfFuel => rw [hdv] at h; cases h

end DependencyMapper

section DependencyMapperClaims

open DependencyMapper

/-- C1 (code defect): the cycle-detection is not exception-free.  On the map
`a → [b], b → [a], c → [a]` the first DFS root finds the cycle `a,b,a` and
returns `True` up the stack, skipping both `rec_stack.remove` calls; the
later root `c` then reaches `a`, which is still on the recursion stack but
not on the current path, and `path.index(a)` raises `ValueError`. -/
theorem c1_cycle_detection_raises :
    detectCircularDependencies
        [(("a"), [("b")]), (("b"), [("a")]), (("c"), [("a")])] = .valueError := by
  simp [detectCircularDependencies, detectLoop, dfsVisit, dfsNeighbors, getDeps,
    graphFuel]

/-- C4 counterexample: the data model declares self-loops possible and
meaningful, yet on the map `a → [a]` the single returned cycle is `[a, a]`,
of length 2, contradicting the claimed minimum length 3. -/
theorem c4_self_loop_cycle_length_two :
    detectCircularDependencies [(("a"), [("a")])] = .ok [[("a"), ("a")]] ∧
      ¬(3 ≤ ([("a"), ("a")] : List String).length) := by
  constructor
  · simp [detectCircularDependencies, detectLoop, dfsVisit, dfsNeighbors, getDeps,
      graphFuel]
  · simp

/-- C4 (amended): every cycle returned by a normally-terminating run of the
cycle detection is an ordered sequence beginning and ending at the same node,
of length at least 2 — exactly 2 for a self-loop, at least 3 when an
intermediate node is involved. -/
theorem c4_cycles_begin_end_same_node (g : List (String × List String))
    (cycles : List (List String)) (h : detectCircularDependencies g = .ok cycles) :
    ∀ c ∈ cycles, 2 ≤ c.length ∧ c.head? = c.getLast? := by
  intro c hc
  unfold detectCircularDependencies at h
  have := detectLoop_preserves_cyclesWF g (graphFuel g) (g.map (fun p => p.1))
    ⟨[], [], []⟩ (by intro c hc; cases hc) cycles h c hc
  exact this

/-- Witness for C4: instantiated on the self-loop map `a → [a]`. -/
theorem c4_cycles_begin_end_same_node_witness :
    2 ≤ ([("a"), ("a")] : List String).length ∧
      ([("a"), ("a")] : List String).head? = ([("a"), ("a")] : List String).getLast? := by
  have happ := c4_cycles_begin_end_same_node [(("a"), [("a")])] [[("a"), ("a")]]
    (by simp [detectCircularDependencies, detectLoop, dfsVisit, dfsNeighbors, getDeps,
      graphFuel])
  exact happ [("a"), ("a")] (by simp)

end DependencyMapperClaims

/-! ## Architecture pattern detector
(`tools/architecture/detector.py`, `patterns_config.py`, `classifiers.py`,
`models.py`) -/

namespace Architecture

/-- `", ".join` / `" ".join`. -/
def joinSep (sep : Str) (xs : List Str) : Str := (xs.intersperse sep).flatten

/-- Decimal rendering of a natural number (Python f-string `{n}`). -/
def natToStr (n : Nat) : Str := (toString n).toList

/-- Decimal rendering of an integer. -/
def intToStr (i : ℤ) : Str := (toString i).toList

/-- Python f-string `{q:.0%}` (percentage with zero decimals). -/
def formatPercent (q : ℚ) : Str := intToStr (pyRoundHalfEven (q * 100)) ++ ("%".toList)

/-- `models.PatternConfig`. -/
structure PatternConfig where
  name : Str
  description : Str
  dirWeights : List (Str × ℚ) := []
  fileKeywords : List Str := []
  minDirMatches : Nat := 1
  threshold : ℚ := 0.3

/-- `models.DetectedPattern`. -/
structure DetectedPattern where
  pattern : Str
  confidence : ℚ
  evidence : List Str
  description : Str

/-- `models.ArchitectureReport`. -/
structure ArchitectureReport where
  detectedPatterns : List DetectedPattern
  primaryPattern : Option DetectedPattern
  secondaryPatterns : List DetectedPattern
  architectureType : Str
  complexityLevel : Str
  frameworkHints : List (Str × List Str)
  recommendations : List Str

/-! ### `patterns_config.py` -/

def SIMPLE_MODULAR : PatternConfig :=
  { name := ("Simple Modular Structure".toList)
    description := ("Estrutura modular simples e pragmática (src, utils, lib)".toList)
    dirWeights := [(("src".toList), 0.3), (("utils".toList), 0.15), (("lib".toList), 0.15),
      (("helpers".toList), 0.1), (("config".toList), 0.1), (("common".toList), 0.1),
      (("shared".toList), 0.1), (("core".toList), 0.15)]
    threshold := 0.3 }

def FEATURE_BASED : PatternConfig :=
  { name := ("Feature-Based Architecture".toList)
    description := ("Organização por features/módulos funcionais".toList)
    dirWeights := [(("features".toList), 0.5), (("modules".toList), 0.5),
      (("packages".toList), 0.4), (("apps".toList), 0.4)]
    threshold := 0.3 }

def BASIC_LAYERED : PatternConfig :=
  { name := ("Basic Layered Architecture".toList)
    description := ("Separação em camadas básicas (services, models, routes)".toList)
    dirWeights := [(("routes".toList), 0.2), (("api".toList), 0.2), (("services".toList), 0.25),
      (("models".toList), 0.2), (("database".toList), 0.15), (("db".toList), 0.15),
      (("middleware".toList), 0.1), (("validators".toList), 0.1), (("schemas".toList), 0.1)]
    fileKeywords := [("service".toList), ("model".toList), ("route".toList), ("controller".toList)]
    minDirMatches := 2
    threshold := 0.3 }

def FRONTEND_STANDARD : PatternConfig :=
  { name := ("Frontend Standard Structure".toList)
    description := ("Estrutura padrão de projeto frontend".toList)
    dirWeights := [(("components".toList), 0.3), (("pages".toList), 0.25), (("views".toList), 0.25),
      (("hooks".toList), 0.15), (("styles".toList), 0.1), (("assets".toList), 0.1),
      (("public".toList), 0.1), (("static".toList), 0.1), (("store".toList), 0.15),
      (("redux".toList), 0.15), (("context".toList), 0.1)]
    fileKeywords := [(".jsx".toList), (".tsx".toList), (".vue".toList), (".svelte".toList),
      ("component".toList), (".css".toList), (".scss".toList), (".sass".toList)]
    threshold := 0.3 }

def BACKEND_STANDARD : PatternConfig :=
  { name := ("Backend Standard Structure".toList)
    description := ("Estrutura padrão de projeto backend".toList)
    dirWeights := [(("controllers".toList), 0.25), (("routes".toList), 0.25), (("api".toList), 0.2),
      (("models".toList), 0.2), (("middleware".toList), 0.15), (("database".toList), 0.15),
      (("migrations".toList), 0.1), (("seeders".toList), 0.05), (("validators".toList), 0.1),
      (("auth".toList), 0.1)]
    fileKeywords := [("server".toList), ("app.py".toList), ("main.py".toList),
      ("index.js".toList), ("app.js".toList)]
    minDirMatches := 2
    threshold := 0.3 }

def MVC : PatternConfig :=
  { name := ("MVC (Model-View-Controller)".toList)
    description := ("Separação clara entre Model, View e Controller".toList)
    dirWeights := [(("models".toList), 0.2), (("views".toList), 0.2), (("controllers".toList), 0.2),
      (("model".toList), 0.2), (("view".toList), 0.2), (("controller".toList), 0.2)]
    fileKeywords := [("controller".toList), ("model".toList), ("view".toList)]
    minDirMatches := 2
    threshold := 0.3 }

def CLEAN_ARCHITECTURE : PatternConfig :=
  { name := ("Clean Architecture".toList)
    description := ("Camadas com dependências unidirecionais".toList)
    dirWeights := [(("domain".toList), 0.25), (("application".toList), 0.25),
      (("infrastructure".toList), 0.25), (("presentation".toList), 0.15),
      (("entities".toList), 0.2), (("usecases".toList), 0.25), (("use_cases".toList), 0.25)]
    fileKeywords := [("interface".toList), ("port".toList), ("adapter".toList),
      ("gateway".toList), ("boundary".toList)]
    minDirMatches := 3
    threshold := 0.3 }

def DDD : PatternConfig :=
  { name := ("Domain-Driven Design (DDD)".toList)
    description := ("Organização por domínios de negócio".toList)
    dirWeights := [(("domain".toList), 0.3), (("entities".toList), 0.2),
      (("valueobjects".toList), 0.2), (("value_objects".toList), 0.2),
      (("aggregates".toList), 0.2), (("repositories".toList), 0.1),
      (("services".toList), 0.1), (("factories".toList), 0.1)]
    fileKeywords := [("entity".toList), ("valueobject".toList), ("aggregate".toList),
      ("domainservice".toList), ("specification".toList)]
    minDirMatches := 3
    threshold := 0.3 }

def HEXAGONAL : PatternConfig :=
  { name := ("Hexagonal Architecture (Ports & Adapters)".toList)
    description := ("Arquitetura de portas e adaptadores".toList)
    dirWeights := [(("ports".toList), 0.4), (("adapters".toList), 0.4), (("inbound".toList), 0.2),
      (("outbound".toList), 0.2), (("primary".toList), 0.2), (("secondary".toList), 0.2)]
    fileKeywords := [("port".toList), ("adapter".toList), ("inbound".toList), ("outbound".toList)]
    minDirMatches := 2
    threshold := 0.3 }

def MICROSERVICES : PatternConfig :=
  { name := ("Microservices".toList)
    description := ("Serviços independentes e desacoplados".toList)
    dirWeights := []
    threshold := 0.3 }

def REPOSITORY_PATTERN : PatternConfig :=
  { name := ("Repository Pattern".toList)
    description := ("Abstração da camada de dados".toList)
    dirWeights := []
    fileKeywords := [("repository".toList), ("irepository".toList),
      ("repository_interface".toList), ("repositoryinterface".toList),
      ("base_repository".toList)]
    threshold := 0.3 }

def EVENT_DRIVEN : PatternConfig :=
  { name := ("Event-Driven Architecture".toList)
    description := ("Comunicação via eventos assíncronos".toList)
    dirWeights := []
    fileKeywords := [("event".toList), ("handler".toList), ("listener".toList),
      ("subscriber".toList), ("publisher".toList), ("consumer".toList)]
    threshold := 0.3 }

def MONOREPO : PatternConfig :=
  { name := ("Monorepo Structure".toList)
    description := ("Múltiplos projetos em um único repositório".toList)
    dirWeights := [(("packages".toList), 0.5), (("apps".toList), 0.5), (("libs".toList), 0.4),
      (("services".toList), 0.3), (("projects".toList), 0.3)]
    threshold := 0.3 }

/-- `detector._GENERIC_PATTERNS`. -/
def GENERIC_PATTERNS : List PatternConfig :=
  [SIMPLE_MODULAR, FEATURE_BASED, BASIC_LAYERED, FRONTEND_STANDARD, BACKEND_STANDARD,
   MVC, CLEAN_ARCHITECTURE, DDD, HEXAGONAL, MONOREPO]

/-- `detector.MIN_CONFIDENCE`. -/
def MIN_CONFIDENCE : ℚ := 0.3

/-- `patterns_config.FRAMEWORK_INDICATORS`. -/
def FRAMEWORK_INDICATORS : List (Str × List (Str × List Str)) :=
  [(("frontend".toList),
    [(("Next.js".toList), [("next.config".toList), ("next-env".toList)]),
     (("Nuxt.js".toList), [("nuxt.config".toList)]),
     (("Vue.js".toList), [("vue.config".toList), (".vue".toList)]),
     (("Angular".toList), [("angular.json".toList)]),
     (("React".toList), [(".jsx".toList), (".tsx".toList)]),
     (("Svelte".toList), [("svelte.config".toList)])]),
   (("backend".toList),
    [(("Express.js".toList), [("express".toList)]),
     (("FastAPI".toList), [("fastapi".toList)]),
     (("Django".toList), [("django".toList), ("manage.py".toList)]),
     (("Flask".toList), [("flask".toList)]),
     (("NestJS".toList), [("nestjs".toList), ("nest-cli".toList)]),
     (("Spring Boot".toList), [("spring".toList), ("application.properties".toList)])]),
   (("database".toList),
    [(("Prisma".toList), [("prisma".toList)]),
     (("TypeORM".toList), [("typeorm".toList)]),
     (("Sequelize".toList), [("sequelize".toList)]),
     (("Mongoose".toList), [("mongoose".toList)]),
     (("SQLAlchemy".toList), [("sqlalchemy".toList)])]),
   (("testing".toList),
    [(("Jest".toList), [("jest.config".toList), ("jest".toList)]),
     (("Pytest".toList), [("pytest".toList), ("pytest.ini".toList)]),
     (("Vitest".toList), [("vitest".toList)]),
     (("Cypress".toList), [("cypress".toList)])]),
   (("deployment".toList),
    [(("Docker".toList), [("docker".toList)]),
     (("Kubernetes".toList), [("kubernetes".toList), ("k8s".toList)]),
     (("Terraform".toList), [("terraform".toList)]),
     (("Vercel".toList), [("vercel.json".toList)]),
     (("Netlify".toList), [("netlify".toList)])])]

/-- `patterns_config.PATTERN_RECOMMENDATIONS`. -/
def PATTERN_RECOMMENDATIONS : List (Str × List Str) :=
  [(("Simple Modular".toList),
    [("✓ Estrutura simples e pragmática. Considere adicionar camadas conforme o projeto cresce.".toList)]),
   (("Repository".toList),
    [("✓ Repository Pattern detectado. Considere adicionar Unit of Work se ainda não houver.".toList)]),
   (("DDD".toList),
    [("✓ DDD detectado. Garanta que bounded contexts estejam bem definidos.".toList),
     ("✓ Considere usar Value Objects para conceitos de domínio imutáveis.".toList)]),
   (("Clean Architecture".toList),
    [("✓ Clean Architecture bem estruturada. Mantenha dependências apontando para o domínio.".toList)]),
   (("Microservices".toList),
    [("✓ Arquitetura de microserviços. Garanta observabilidade e resiliência.".toList),
     ("✓ Considere implementar circuit breakers e service mesh.".toList)]),
   (("Frontend Standard".toList),
    [("✓ Estrutura frontend organizada. Considere adicionar state management se necessário.".toList)]),
   (("Backend Standard".toList),
    [("✓ Backend estruturado. Considere adicionar validação e tratamento de erros robusto.".toList)]),
   (("Feature-Based".toList),
    [("✓ Organização por features facilita escalabilidade. Evite dependências circulares entre features.".toList)]),
   (("Event-Driven".toList),
    [("✓ Arquitetura event-driven. Implemente idempotência nos handlers de eventos.".toList),
     ("✓ Considere dead letter queues para eventos com falha.".toList)])]

namespace Detector

/-- `ArchitectureDetectorTool._detect_generic`.  The Python list
comprehension over `cfg.dir_weights.items()` with the subsequent
`cfg.dir_weights[k]` lookups is embedded by filtering the (unique-keyed)
association list and reading keys/weights off the filtered pairs. -/
def detectGeneric (cfg : PatternConfig) (dirsLower filesLower : List Str) :
    Option DetectedPattern :=
  let matched := cfg.dirWeights.filter
    (fun kw => dirsLower.any (fun d => containsSub kw.1 d))
  let matchedDirs := matched.map (fun kw => kw.1)
  if matchedDirs.length < cfg.minDirMatches then none
  else
    let confidence : ℚ := (matched.map (fun kw => kw.2)).sum
    let evidence := [("Diretórios: ".toList) ++ joinSep (", ".toList) matchedDirs]
    let matchedFiles :=
      if !cfg.fileKeywords.isEmpty then
        (filesLower.filter (fun f => cfg.fileKeywords.any (fun kw => containsSub kw f))).length
      else 0
    let confidence :=
      if !cfg.fileKeywords.isEmpty && matchedFiles ≠ 0 then
        confidence + min ((matchedFiles : ℚ) * 0.05) 0.2
      else confidence
    let evidence :=
      if !cfg.fileKeywords.isEmpty && matchedFiles ≠ 0 then
        evidence ++ [("Arquivos correspondentes: ".toList) ++ natToStr matchedFiles]
      else evidence
    if confidence < cfg.threshold then none
    else some
      { pattern := cfg.name
        confidence := min confidence 1.0
        evidence := evidence
        description := cfg.description }

/-- `ArchitectureDetectorTool._detect_repository`. -/
def detectRepository (filesLower : List Str) (structStr : Str) :
    Option DetectedPattern :=
  let repoFiles := filesLower.filter (fun f => containsSub ("repository".toList) f)
  if repoFiles.isEmpty then none
  else
    let confidence : ℚ := 0.4 + (if 3 ≤ repoFiles.length then 0.2 else 0.0)
    let evidence := [natToStr repoFiles.length ++
      (if 1 < repoFiles.length then (" repositories encontrado(s)".toList)
       else (" repository encontrado(s)".toList))]
    let interfaceFiles := filesLower.filter (fun f =>
      [("irepository".toList), ("repository_interface".toList),
       ("repositoryinterface".toList), ("base_repository".toList)].any
        (fun p => containsSub p f))
    let confidence := if !interfaceFiles.isEmpty then confidence + 0.3 else confidence
    let evidence := if !interfaceFiles.isEmpty then
        evidence ++ [("Interfaces/abstrações de repository encontradas".toList)]
      else evidence
    let confidence := if containsSub ("repositor".toList) structStr then confidence + 0.1
      else confidence
    let evidence := if containsSub ("repositor".toList) structStr then
        evidence ++ [("Diretório repositories organizado".toList)]
      else evidence
    if MIN_CONFIDENCE ≤ confidence then
      some { pattern := REPOSITORY_PATTERN.name, confidence := min confidence 1.0
             evidence := evidence, description := REPOSITORY_PATTERN.description }
    else none

/-- `ArchitectureDetectorTool._detect_microservices`. -/
def detectMicroservices (dirsLower : List Str) (structStr : Str) :
    Option DetectedPattern :=
  let serviceDirs := dirsLower.filter (fun d => containsSub ("service".toList) d)
  let count := serviceDirs.length
  let confidence : ℚ := if 2 ≤ count then 0.3 + (if 3 ≤ count then 0.2 else 0.0) else 0.0
  let evidence : List Str := if 2 ≤ count then
      [natToStr count ++ (" serviços identificados".toList)]
    else []
  let containerTools := [("docker-compose".toList), ("dockerfile".toList),
    ("kubernetes".toList), ("k8s".toList), (".dockerignore".toList)]
  let hasContainer := containerTools.any (fun tool => containsSub tool structStr)
  let confidence := if hasContainer then confidence + 0.3 else confidence
  let evidence := if hasContainer then
      evidence ++ [("Configurações de containerização encontradas".toList)]
    else evidence
  let hasGateway := dirsLower.any (fun d =>
    [("gateway".toList), ("proxy".toList)].any (fun kw => containsSub kw d))
  let confidence := if hasGateway then confidence + 0.2 else confidence
  let evidence := if hasGateway then
      evidence ++ [("API Gateway/Proxy detectado".toList)]
    else evidence
  if MIN_CONFIDENCE ≤ confidence then
    some { pattern := MICROSERVICES.name, confidence := min confidence 1.0
           evidence := evidence, description := MICROSERVICES.description }
  else none

/-- `ArchitectureDetectorTool._detect_event_driven`. -/
def detectEventDriven (filesLower : List Str) (structStr : Str) :
    Option DetectedPattern :=
  let eventFiles := filesLower.filter (fun f =>
    EVENT_DRIVEN.fileKeywords.any (fun kw => containsSub kw f))
  if eventFiles.isEmpty then none
  else
    let confidence : ℚ := 0.3 + (if 3 ≤ eventFiles.length then 0.2 else 0.0)
    let evidence := [natToStr eventFiles.length ++
      (" componente(s) de eventos encontrados".toList)]
    let brokers := [("kafka".toList), ("rabbitmq".toList), ("redis".toList),
      ("pubsub".toList), ("queue".toList), ("eventbus".toList), ("messagebus".toList)]
    let foundBrokers := brokers.filter (fun b => containsSub b structStr)
    let confidence := if !foundBrokers.isEmpty then confidence + 0.3 else confidence
    let evidence := if !foundBrokers.isEmpty then
        evidence ++ [("Message brokers: ".toList) ++ joinSep (", ".toList) foundBrokers]
      else evidence
    let confidence := if containsSub ("event".toList) structStr then confidence + 0.2
      else confidence
    let evidence := if containsSub ("event".toList) structStr then
        evidence ++ [("Estrutura organizada por eventos".toList)]
      else evidence
    if MIN_CONFIDENCE ≤ confidence then
      some { pattern := EVENT_DRIVEN.name, confidence := min confidence 1.0
             evidence := evidence, description := EVENT_DRIVEN.description }
    else none

/-- `ArchitectureDetectorTool._detect_frameworks`. -/
def detectFrameworks (filesLower : List Str) (structStr : Str) :
    List (Str × List Str) :=
  let combined := structStr ++ (' ' :: joinSep (" ".toList) filesLower)
  FRAMEWORK_INDICATORS.filterMap (fun cat =>
    let detected := cat.2.filterMap (fun fw =>
      if fw.2.any (fun ind => containsSub ind combined) then some fw.1 else none)
    if !detected.isEmpty then some (cat.1, detected) else none)

/-! ### `classifiers.py` -/

/-- `classifiers._ARCHITECTURE_TYPES`. -/
def ARCHITECTURE_TYPES : List (Str × Str) :=
  [(("Microservices".toList), ("Distributed Architecture".toList)),
   (("Monorepo".toList), ("Monorepo Multi-Project".toList)),
   (("Event-Driven".toList), ("Event-Driven / Reactive Architecture".toList)),
   (("MVC".toList), ("Traditional MVC Architecture".toList)),
   (("Feature-Based".toList), ("Feature-Based Modular Architecture".toList)),
   (("Frontend Standard".toList), ("Frontend Application Structure".toList)),
   (("Backend Standard".toList), ("Backend API Structure".toList)),
   (("Simple Modular".toList), ("Simple Modular Structure".toList))]

/-- `classifiers._DOMAIN_CENTRIC`. -/
def DOMAIN_CENTRIC : List Str :=
  [("Clean Architecture".toList), ("Hexagonal Architecture".toList),
   ("Domain-Driven Design".toList)]

/-- `classifiers._COMPLEX_PATTERNS`. -/
def COMPLEX_PATTERNS : List Str :=
  [("Clean Architecture".toList), ("DDD".toList), ("Hexagonal".toList),
   ("Microservices".toList), ("Event-Driven".toList)]

/-- `classifiers._SIMPLE_PATTERNS`. -/
def SIMPLE_PATTERNS : List Str :=
  [("Simple Modular".toList), ("Basic Layered".toList), ("Frontend Standard".toList),
   ("Backend Standard".toList)]

/-- `classifiers.classify_architecture_type`. -/
def classifyArchitectureType (patterns : List DetectedPattern) : Str :=
  match patterns with
  | [] => ("Arquitetura não identificada".toList)
  | primary :: _ =>
    if patterns.any (fun p => DOMAIN_CENTRIC.any (fun dc => containsSub dc p.pattern)) then
      ("Domain-Centric Architecture".toList)
    else
      match ARCHITECTURE_TYPES.find? (fun kl => containsSub kl.1 primary.pattern) with
      | some kl => kl.2
      | none =>
        if patterns.any (fun p => containsSub ("Layered".toList) p.pattern) then
          ("Layered Architecture".toList)
        else ("Custom/Mixed Architecture".toList)

/-- `classifiers.assess_complexity`. -/
def assessComplexity (patterns : List DetectedPattern) : Str :=
  match patterns with
  | [] => ("Unknown".toList)
  | primary :: _ =>
    let hasComplex := patterns.any (fun p =>
      COMPLEX_PATTERNS.any (fun cp => containsSub cp p.pattern))
    let isSimple := SIMPLE_PATTERNS.any (fun sp => containsSub sp primary.pattern)
    if hasComplex ∧ (0.7 : ℚ) < primary.confidence then ("High (Enterprise-level)".toList)
    else if hasComplex ∨ 4 ≤ patterns.length then ("Medium-High (Structured)".toList)
    else if 2 ≤ patterns.length ∧ (0.6 : ℚ) < primary.confidence then
      ("Medium (Organized)".toList)
    else if isSimple then ("Low-Medium (Simple & Pragmatic)".toList)
    else ("Low (Basic)".toList)

/-! ### Recommendations and the report assembly -/

/-- Python `list(dict.fromkeys(xs))`: deduplicate keeping first occurrences. -/
def dedupKeepFirst (xs : List Str) : List Str :=
  xs.foldl (fun acc x => if acc.contains x then acc else acc ++ [x]) []

/-- `ArchitectureDetectorTool._build_recommendations`. -/
def buildRecommendations (patterns : List DetectedPattern) : List Str :=
  match patterns with
  | [] =>
    [("✓ Considere adotar um padrão arquitetural claro para facilitar manutenção".toList),
     ("✓ Organize o código em diretórios como src/, utils/, config/".toList)]
  | primary :: _ =>
    let recommendations : List Str :=
      if primary.confidence < 0.5 then
        [("⚠ Padrão '".toList) ++ primary.pattern ++
          ("' com confiança moderada (".toList) ++ formatPercent primary.confidence ++
          ("). Considere reforçar a estrutura.".toList)]
      else if 0.8 ≤ primary.confidence then
        [("✓ Arquitetura bem definida (".toList) ++ primary.pattern ++ (")".toList)]
      else []
    let recommendations :=
      if 4 < patterns.length then
        recommendations ++
          [("⚠ Múltiplos padrões detectados. Considere consolidar para evitar complexidade.".toList)]
      else recommendations
    let recommendations :=
      PATTERN_RECOMMENDATIONS.foldl (fun acc kr =>
        if patterns.any (fun p => containsSub kr.1 p.pattern) then acc ++ kr.2 else acc)
        recommendations
    let recommendations :=
      if !patterns.any (fun p => containsSub ("test".toList) (pyLower p.pattern)) then
        recommendations ++
          [("⚠ Considere adicionar diretório de testes (tests/, __tests__/)".toList)]
      else recommendations
    match dedupKeepFirst recommendations with
    | [] => [("✓ Arquitetura bem estruturada".toList)]
    | r :: rs => r :: rs

/-- The comparison `patterns.sort(key=lambda p: p.confidence, reverse=True)`
sorts by (stable merge sort, descending confidence). -/
def sortLe (a b : DetectedPattern) : Bool := decide (b.confidence ≤ a.confidence)

/-- The `patterns` list of `ArchitectureDetectorTool.execute` before the
in-place sort: the generic table-driven detections followed by the three
specialized ones. -/
def collectPatterns (fileStructureKeys fileNames dirNames : List Str) :
    List DetectedPattern :=
  let dirsLower := dirNames.map pyLower
  let filesLower := fileNames.map pyLower
  let structStr := joinSep (" ".toList) (fileStructureKeys.map pyLower)
  GENERIC_PATTERNS.filterMap (fun cfg => detectGeneric cfg dirsLower filesLower) ++
    [detectRepository filesLower structStr,
     detectMicroservices dirsLower structStr,
     detectEventDriven filesLower structStr].filterMap id

/-- `ArchitectureDetectorTool.execute` (pure core: inputs are the
`file_structure` keys, the file names and the directory names). -/
def execute (fileStructureKeys fileNames dirNames : List Str) : ArchitectureReport :=
  let filesLower := fileNames.map pyLower
  let structStr := joinSep (" ".toList) (fileStructureKeys.map pyLower)
  let sorted := (collectPatterns fileStructureKeys fileNames dirNames).mergeSort sortLe
  { detectedPatterns := sorted
    primaryPattern := sorted.head?
    secondaryPatterns := if 1 < sorted.length then (sorted.drop 1).take 3 else []
    architectureType := classifyArchitectureType sorted
    complexityLevel := assessComplexity sorted
    frameworkHints := detectFrameworks filesLower structStr
    recommendations := buildRecommendations sorted }

end Detector

end Architecture

section ArchitectureFacts

open Architecture Architecture.Detector

theorem generic_thresholds_nonneg :
    ∀ cfg ∈ GENERIC_PATTERNS, 0 ≤ cfg.threshold := by
  intro cfg hcfg
  fin_cases hcfg <;>
    norm_num [SIMPLE_MODULAR, FEATURE_BASED, BASIC_LAYERED, FRONTEND_STANDARD,
      BACKEND_STANDARD, MVC, CLEAN_ARCHITECTURE, DDD, HEXAGONAL, MONOREPO]

theorem gate_lt_some {C t : ℚ} {nm desc : Str} {ev : List Str} {p : DetectedPattern}
    (ht : 0 ≤ t)
    (h : (if C < t then none
          else some ({ pattern := nm, confidence := min C 1.0, evidence := ev
                       description := desc } : DetectedPattern)) = some p) :
    p.pattern = nm ∧ 0 ≤ p.confidence ∧ p.confidence ≤ 1 := by
  split at h
  · simp at h
  · rename_i hnc
    rw [Option.some.injEq] at h
    subst h
    exact ⟨rfl, le_min (le_trans ht (not_lt.mp hnc)) (by norm_num),
      le_trans (min_le_right _ _) (by norm_num)⟩

theorem gate_ge_some {C : ℚ} {nm desc : Str} {ev : List Str} {p : DetectedPattern}
    (h : (if MIN_CONFIDENCE ≤ C then
            some ({ pattern := nm, confidence := min C 1.0, evidence := ev
                    description := desc } : DetectedPattern)
          else none) = some p) :
    p.pattern = nm ∧ 0 ≤ p.confidence ∧ p.confidence ≤ 1 := by
  split at h
  · rename_i hc
    rw [Option.some.injEq] at h
    subst h
    exact ⟨rfl, le_min (le_trans (by norm_num [MIN_CONFIDENCE]) hc) (by norm_num),
      le_trans (min_le_right _ _) (by norm_num)⟩
  · simp at h

theorem detectGeneric_some {cfg : PatternConfig} {dl fl : List Str}
    {p : DetectedPattern} (ht : 0 ≤ cfg.threshold)
    (h : detectGeneric cfg dl fl = some p) :
    p.pattern = cfg.name ∧ 0 ≤ p.confidence ∧ p.confidence ≤ 1 := by
  simp only [detectGeneric] at h
  split at h
  · simp at h
  · exact gate_lt_some ht h

theorem detectRepository_some {fl : List Str} {ss : Str} {p : DetectedPattern}
    (h : detectRepository fl ss = some p) :
    p.pattern = REPOSITORY_PATTERN.name ∧ 0 ≤ p.confidence ∧ p.confidence ≤ 1 := by
  simp only [detectRepository] at h
  split at h
  · simp at h
  · exact gate_ge_some h

theorem detectMicroservices_some {dl : List Str} {ss : Str} {p : DetectedPattern}
    (h : detectMicroservices dl ss = some p) :
    p.pattern = MICROSERVICES.name ∧ 0 ≤ p.confidence ∧ p.confidence ≤ 1 := by
  simp only [detectMicroservices] at h
  exact gate_ge_some h

theorem detectEventDriven_some {fl : List Str} {ss : Str} {p : DetectedPattern}
    (h : detectEventDriven fl ss = some p) :
    p.pattern = EVENT_DRIVEN.name ∧ 0 ≤ p.confidence ∧ p.confidence ≤ 1 := by
  simp only [detectEventDriven] at h
  split at h
  · simp at h
  · exact gate_ge_some h

theorem collectPatterns_bounds (ks fs ds : List Str) :
    ∀ p ∈ collectPatterns ks fs ds, 0 ≤ p.confidence ∧ p.confidence ≤ 1 := by
  intro p hp
  simp only [collectPatterns] at hp
  rcases List.mem_append.mp hp with hg | hs
  · obtain ⟨cfg, hcfg, hdet⟩ := List.mem_filterMap.mp hg
    exact (detectGeneric_some (generic_thresholds_nonneg cfg hcfg) hdet).2
  · obtain ⟨o, ho, hoeq⟩ := List.mem_filterMap.mp hs
    simp only [List.mem_cons, List.not_mem_nil, or_false] at ho
    simp only [id] at hoeq
    rcases ho with rfl | rfl | rfl
    · exact (detectRepository_some hoeq).2
    · exact (detectMicroservices_some hoeq).2
    · exact (detectEventDriven_some hoeq).2

theorem sortLe_trans : ∀ a b c : DetectedPattern,
    sortLe a b = true → sortLe b c = true → sortLe a c = true := by
  intro a b c hab hbc
  simp only [sortLe, decide_eq_true_eq] at *
  exact le_trans hbc hab

theorem sortLe_total : ∀ a b : DetectedPattern,
    (sortLe a b || sortLe b a) = true := by
  intro a b
  simp only [sortLe, Bool.or_eq_true, decide_eq_true_eq]
  exact le_total b.confidence a.confidence

theorem dedupKeepFirst_aux_nodup (xs : List Str) :
    ∀ acc : List Str, acc.Nodup →
      (xs.foldl (fun acc x => if acc.contains x then acc else acc ++ [x]) acc).Nodup := by
  induction xs with
  | nil => intro acc h; simpa using h
  | cons x xs ih =>
    intro acc h
    simp only [List.foldl_cons]
    by_cases hc : acc.contains x = true
    · rw [if_pos hc]
      exact ih acc h
    · rw [if_neg hc]
      refine ih _ ?_
      have hnotmem : x ∉ acc := fun hmem => hc (List.elem_eq_true_of_mem hmem)
      rw [List.nodup_append]
      refine ⟨h, List.nodup_singleton x, ?_⟩
      intro b hb hbx
      rw [List.mem_singleton.mp hbx] at hb
      exact hnotmem hb

theorem dedupKeepFirst_nodup (xs : List Str) : (dedupKeepFirst xs).Nodup :=
  dedupKeepFirst_aux_nodup xs [] (by simp)

theorem buildRecommendations_ne_nil (ps : List DetectedPattern) :
    buildRecommendations ps ≠ [] := by
  cases ps with
  | nil => simp [buildRecommendations]
  | cons primary rest =>
    simp only [buildRecommendations]
    split
    · simp
    · simp

theorem buildRecommendations_nodup (ps : List DetectedPattern) :
    (buildRecommendations ps).Nodup := by
  cases ps with
  | nil =>
    simp only [buildRecommendations]
    decide
  | cons primary rest =>
    simp only [buildRecommendations]
    split
    · simp
    · rename_i r rs heq
      rw [← heq]
      exact dedupKeepFirst_nodup _

/-- C6: for every input, the architecture report satisfies: every detected
pattern's confidence lies in `[0, 1]`; when the detected list is non-empty the
primary pattern carries its maximum confidence; at most three secondary
patterns; a non-empty recommendation list; and pairwise-distinct
recommendation entries. -/
theorem c6_report_invariants (ks fs ds : List Str) :
    (∀ p ∈ (Detector.execute ks fs ds).detectedPatterns,
        0 ≤ p.confidence ∧ p.confidence ≤ 1) ∧
      (∀ pp, (Detector.execute ks fs ds).primaryPattern = some pp →
        ∀ p ∈ (Detector.execute ks fs ds).detectedPatterns,
          p.confidence ≤ pp.confidence) ∧
      (Detector.execute ks fs ds).secondaryPatterns.length ≤ 3 ∧
      (Detector.execute ks fs ds).recommendations ≠ [] ∧
      (Detector.execute ks fs ds).recommendations.Nodup := by
  have hperm := List.mergeSort_perm (collectPatterns ks fs ds) sortLe
  refine ⟨?_, ?_, ?_, ?_, ?_⟩
  · intro p hp
    have hp' : p ∈ (collectPatterns ks fs ds).mergeSort sortLe := hp
    exact collectPatterns_bounds ks fs ds p (hperm.mem_iff.mp hp')
  · intro pp hpp p hp
    have hsorted := @List.sorted_mergeSort _ sortLe sortLe_trans sortLe_total
      (collectPatterns ks fs ds)
    have hpp' : ((collectPatterns ks fs ds).mergeSort sortLe).head? = some pp := hpp
    have hp' : p ∈ (collectPatterns ks fs ds).mergeSort sortLe := hp
    cases hms : (collectPatterns ks fs ds).mergeSort sortLe with
    | nil => rw [hms] at hpp'; cases hpp'
    | cons q tl =>
      rw [hms] at hpp' hp' hsorted
      injection hpp' with hq
      subst hq
      rcases List.mem_cons.mp hp' with rfl | htl
      · exact le_refl _
      · exact of_decide_eq_true ((List.pairwise_cons.mp hsorted).1 p htl)
  · have hsec : (Detector.execute ks fs ds).secondaryPatterns
        = if 1 < ((collectPatterns ks fs ds).mergeSort sortLe).length then
            (((collectPatterns ks fs ds).mergeSort sortLe).drop 1).take 3
          else [] := rfl
    rw [hsec]
    split
    · exact List.length_take_le 3 _
    · simp
  · exact buildRecommendations_ne_nil _
  · exact buildRecommendations_nodup _

theorem detectGeneric_empty_dirs {cfg : PatternConfig} (fl : List Str)
    (h : 1 ≤ cfg.minDirMatches) : detectGeneric cfg [] fl = none := by
  simp only [detectGeneric]
  have hfil : cfg.dirWeights.filter
      (fun kw => ([] : List Str).any (fun d => containsSub kw.1 d)) = [] := by
    simp
  rw [hfil]
  simp only [List.map_nil, List.length_nil]
  rw [if_pos (by omega)]

theorem genericPatterns_minDirMatches :
    ∀ cfg ∈ GENERIC_PATTERNS, 1 ≤ cfg.minDirMatches := by
  intro cfg hcfg
  fin_cases hcfg <;>
    norm_num [SIMPLE_MODULAR, FEATURE_BASED, BASIC_LAYERED, FRONTEND_STANDARD,
      BACKEND_STANDARD, MVC, CLEAN_ARCHITECTURE, DDD, HEXAGONAL, MONOREPO]

theorem detectRepository_empty_files (ss : Str) : detectRepository [] ss = none := by
  simp [detectRepository]

theorem detectEventDriven_empty_files (ss : Str) : detectEventDriven [] ss = none := by
  simp [detectEventDriven]

theorem detectGeneric_MVC_models :
    detectGeneric MVC [("models".toList)] [] =
      some { pattern := MVC.name
             confidence := min (0.2 + 0.2 : ℚ) 1.0
             evidence := [("Diretórios: models, model".toList)]
             description := MVC.description } := by
  have g1 : containsSub ['m', 'o', 'd', 'e', 'l', 's'] ['m', 'o', 'd', 'e', 'l', 's']
      = true := by decide
  have g2 : containsSub ['v', 'i', 'e', 'w', 's'] ['m', 'o', 'd', 'e', 'l', 's']
      = false := by decide
  have g3 : containsSub ['c', 'o', 'n', 't', 'r', 'o', 'l', 'l', 'e', 'r', 's']
      ['m', 'o', 'd', 'e', 'l', 's'] = false := by decide
  have g4 : containsSub ['m', 'o', 'd', 'e', 'l'] ['m', 'o', 'd', 'e', 'l', 's']
      = true := by decide
  have g5 : containsSub ['v', 'i', 'e', 'w'] ['m', 'o', 'd', 'e', 'l', 's']
      = false := by decide
  have g6 : containsSub ['c', 'o', 'n', 't', 'r', 'o', 'l', 'l', 'e', 'r']
      ['m', 'o', 'd', 'e', 'l', 's'] = false := by decide
  have hev : joinSep [',', ' '] [['m', 'o', 'd', 'e', 'l', 's'], ['m', 'o', 'd', 'e', 'l']]
      = ['m', 'o', 'd', 'e', 'l', 's', ',', ' ', 'm', 'o', 'd', 'e', 'l'] := by decide
  simp only [detectGeneric, MVC]
  norm_num [g1, g2, g3, g4, g5, g6, hev, min_def]

theorem detectMicroservices_dockerfile :
    detectMicroservices [] ['d', 'o', 'c', 'k', 'e', 'r', 'f', 'i', 'l', 'e'] =
      some { pattern := MICROSERVICES.name
             confidence := min (0.0 + 0.3 : ℚ) 1.0
             evidence := [("Configurações de containerização encontradas".toList)]
             description := MICROSERVICES.description } := by
  have h1 : containsSub ['d', 'o', 'c', 'k', 'e', 'r', '-', 'c', 'o', 'm', 'p', 'o', 's', 'e']
      ['d', 'o', 'c', 'k', 'e', 'r', 'f', 'i', 'l', 'e'] = false := by decide
  have h2 : containsSub ['d', 'o', 'c', 'k', 'e', 'r', 'f', 'i', 'l', 'e']
      ['d', 'o', 'c', 'k', 'e', 'r', 'f', 'i', 'l', 'e'] = true := by decide
  simp only [detectMicroservices]
  norm_num [h1, h2, MIN_CONFIDENCE, min_def]

/-- Full evaluation of the collected pattern list on the input whose only
signal is a `dockerfile` structure key. -/
theorem collectPatterns_dockerfile :
    collectPatterns [("dockerfile".toList)] [] [] =
      [{ pattern := MICROSERVICES.name
         confidence := min (0.0 + 0.3 : ℚ) 1.0
         evidence := [("Configurações de containerização encontradas".toList)]
         description := MICROSERVICES.description }] := by
  have hss2 : joinSep (" ".toList) (List.map pyLower [("dockerfile".toList)])
      = ['d', 'o', 'c', 'k', 'e', 'r', 'f', 'i', 'l', 'e'] := by decide
  have hgen : GENERIC_PATTERNS.filterMap
      (fun cfg => detectGeneric cfg ([] : List Str) ([] : List Str)) = [] :=
    List.filterMap_eq_nil_iff.mpr
      (fun cfg hcfg => detectGeneric_empty_dirs _ (genericPatterns_minDirMatches cfg hcfg))
  simp only [collectPatterns, List.map_nil]
  rw [hss2, hgen, detectRepository_empty_files, detectMicroservices_dockerfile,
    detectEventDriven_empty_files]
  rfl

/-- C2 (code defect): the repository's own test asserts that with
`directory_names=["models"]` alone MVC must NOT be detected
(`test_mvc_requires_min_two_dirs`), yet the detector reports it: the single
directory `models` substring-matches both the `models` and the `model`
keyword of the MVC table, so `min_dir_matches=2` is met with confidence 0.4
above the 0.3 threshold. -/
theorem c2_mvc_detected_with_only_models_dir :
    ("MVC (Model-View-Controller)".toList) ∈
      ((Detector.execute [] [] [("models".toList)]).detectedPatterns.map
        (fun p => p.pattern)) := by
  have hlow : List.map pyLower [("models".toList)] = [("models".toList)] := by decide
  have hmem : ({ pattern := MVC.name
                 confidence := min (0.2 + 0.2 : ℚ) 1.0
                 evidence := [("Diretórios: models, model".toList)]
                 description := MVC.description } : DetectedPattern)
      ∈ collectPatterns [] [] [("models".toList)] := by
    simp only [collectPatterns, hlow, List.map_nil]
    apply List.mem_append_left
    apply List.mem_filterMap.mpr
    exact ⟨MVC, by simp [GENERIC_PATTERNS], detectGeneric_MVC_models⟩
  exact List.mem_map.mpr ⟨_, (List.mergeSort_perm _ _).mem_iff.mpr hmem, rfl⟩

/-- C5 counterexample: with no directory at all (hence zero directory names
containing "service") but a `dockerfile` structure key, Microservices IS
among the detected patterns: containerization indicators alone contribute
0.3, which meets the 0.3 minimum. -/
theorem c5_microservices_without_service_dirs :
    ("Microservices".toList) ∈
      ((Detector.execute [("dockerfile".toList)] [] []).detectedPatterns.map
        (fun p => p.pattern)) := by
  have hmem : ({ pattern := MICROSERVICES.name
                 confidence := min (0.0 + 0.3 : ℚ) 1.0
                 evidence := [("Configurações de containerização encontradas".toList)]
                 description := MICROSERVICES.description } : DetectedPattern)
      ∈ collectPatterns [("dockerfile".toList)] [] [] := by
    rw [collectPatterns_dockerfile]
    exact List.mem_singleton_self _
  exact List.mem_map.mpr ⟨_, (List.mergeSort_perm _ _).mem_iff.mpr hmem, rfl⟩

theorem detectMicroservices_none {dl : List Str} {ss : Str}
    (hserv : (dl.filter (fun d => containsSub ("service".toList) d)).length < 2)
    (hcont : ([("docker-compose".toList), ("dockerfile".toList), ("kubernetes".toList),
        ("k8s".toList), (".dockerignore".toList)].any
          (fun tool => containsSub tool ss)) = false) :
    detectMicroservices dl ss = none := by
  simp only [detectMicroservices, hcont, Bool.false_eq_true, if_false]
  split_ifs with h1 h2 h3 h4 h5 h6 <;>
    first
      | rfl
      | (exact absurd h1 (by omega))
      | (exfalso; revert ‹MIN_CONFIDENCE ≤ _›; norm_num [MIN_CONFIDENCE])

theorem generic_names_ne_microservices :
    ∀ cfg ∈ GENERIC_PATTERNS, cfg.name ≠ ("Microservices".toList) := by
  intro cfg hcfg
  fin_cases hcfg <;> decide

/-- C5 (amended): Microservices is reported exactly when its confidence
reaches 0.3, which containerization indicators alone can supply; but with
fewer than 2 directory names containing "service" AND no containerization
indicator among the structure keys, Microservices never appears among the
detected patterns, regardless of gateway/proxy directories (worth only
0.2 < 0.3). -/
theorem c5_microservices_needs_service_dirs_or_container (ks fs ds : List Str)
    (hserv : ((ds.map pyLower).filter
        (fun d => containsSub ("service".toList) d)).length < 2)
    (hcont : ([("docker-compose".toList), ("dockerfile".toList), ("kubernetes".toList),
        ("k8s".toList), (".dockerignore".toList)].any
          (fun tool => containsSub tool (joinSep (" ".toList) (ks.map pyLower))))
        = false) :
    ("Microservices".toList) ∉
      ((Detector.execute ks fs ds).detectedPatterns.map (fun p => p.pattern)) := by
  intro hmem
  obtain ⟨p, hp, hname⟩ := List.mem_map.mp hmem
  have hp' : p ∈ collectPatterns ks fs ds := (List.mergeSort_perm _ _).mem_iff.mp hp
  simp only [collectPatterns] at hp'
  rcases List.mem_append.mp hp' with hg | hs
  · obtain ⟨cfg, hcfg, hdet⟩ := List.mem_filterMap.mp hg
    have hn := (detectGeneric_some (generic_thresholds_nonneg cfg hcfg) hdet).1
    exact generic_names_ne_microservices cfg hcfg (hn ▸ hname)
  · obtain ⟨o, ho, hoeq⟩ := List.mem_filterMap.mp hs
    simp only [List.mem_cons, List.not_mem_nil, or_false] at ho
    simp only [id] at hoeq
    rcases ho with rfl | rfl | rfl
    · have hn := (detectRepository_some hoeq).1
      exact absurd (hn ▸ hname) (by decide)
    · rw [detectMicroservices_none hserv hcont] at hoeq
      cases hoeq
    · have hn := (detectEventDriven_some hoeq).1
      exact absurd (hn ▸ hname) (by decide)

/-- Witness for C5 (amended), instantiated at the empty input. -/
theorem c5_microservices_needs_service_dirs_or_container_witness :
    ((([] : List Str).map pyLower).filter
        (fun d => containsSub ("service".toList) d)).length < 2 ∧
      ("Microservices".toList) ∉
        ((Detector.execute [] [] []).detectedPatterns.map (fun p => p.pattern)) :=
  ⟨by decide,
    c5_microservices_needs_service_dirs_or_container [] [] [] (by decide) (by decide)⟩

/-- Witness for C6, instantiated on the `dockerfile` input, whose report
detects exactly the Microservices pattern. -/
theorem c6_report_invariants_witness :
    (0 ≤ min (0.0 + 0.3 : ℚ) 1.0 ∧ min (0.0 + 0.3 : ℚ) 1.0 ≤ 1) ∧
      min (0.0 + 0.3 : ℚ) 1.0 ≤ min (0.0 + 0.3 : ℚ) 1.0 ∧
      (Detector.execute [("dockerfile".toList)] [] []).secondaryPatterns.length ≤ 3 ∧
      (Detector.execute [("dockerfile".toList)] [] []).recommendations ≠ [] ∧
      (Detector.execute [("dockerfile".toList)] [] []).recommendations.Nodup := by
  have h := c6_report_invariants [("dockerfile".toList)] [] []
  have hsorted : (collectPatterns [("dockerfile".toList)] [] []).mergeSort sortLe =
      [{ pattern := MICROSERVICES.name
         confidence := min (0.0 + 0.3 : ℚ) 1.0
         evidence := [("Configurações de containerização encontradas".toList)]
         description := MICROSERVICES.description }] :=
    List.perm_singleton.mp
      ((List.mergeSort_perm _ _).trans (by rw [collectPatterns_dockerfile]))
  have hmem : ({ pattern := MICROSERVICES.name
                 confidence := min (0.0 + 0.3 : ℚ) 1.0
                 evidence := [("Configurações de containerização encontradas".toList)]
                 description := MICROSERVICES.description } : DetectedPattern)
      ∈ (Detector.execute [("dockerfile".toList)] [] []).detectedPatterns := by
    show _ ∈ (collectPatterns [("dockerfile".toList)] [] []).mergeSort sortLe
    rw [hsorted]
    exact List.mem_singleton_self _
  have hpp : (Detector.execute [("dockerfile".toList)] [] []).primaryPattern =
      some { pattern := MICROSERVICES.name
             confidence := min (0.0 + 0.3 : ℚ) 1.0
             evidence := [("Configurações de containerização encontradas".toList)]
             description := MICROSERVICES.description } := by
    show ((collectPatterns [("dockerfile".toList)] [] []).mergeSort sortLe).head? = _
    rw [hsorted]
    rfl
  exact ⟨h.1 _ hmem, h.2.1 _ hpp _ hmem, h.2.2.1, h.2.2.2.1, h.2.2.2.2⟩

end ArchitectureFacts

/-! ## Quality checker (`tools/quality_checker.py`)

The handful of Python regexes the checker runs are embedded as deterministic
scanners over `Str`.  Each matcher takes the text at a candidate position and
returns `some (capture, remainder)` on a match (the capture is the regex's
group, or `[]` for group-less patterns), `none` otherwise; `re.findall`
becomes `scanMatches`: try the matcher at every position, jumping over each
match, exactly like the `re` scanning loop.  For every pattern used here
greedy matching without backtracking is equivalent to the `re` semantics
(each bounded repetition is followed by a character its class excludes). -/

namespace QualityChecker

/-- One matcher: capture and remainder on success. -/
abbrev Matcher := Str → Option (Str × Str)

/-- Match a literal. -/
def matchLit (lit : Str) (s : Str) : Option Str :=
  match lit, s with
  | [], s => some s
  | _ :: _, [] => none
  | l :: ls, c :: cs => if c = l then matchLit ls cs else none

/-- Greedy `p+`: at least one character satisfying `p`, maximal run. -/
def matchPlus (p : Char → Bool) (s : Str) : Option Str :=
  match s with
  | [] => none
  | c :: rest => if p c then some (rest.dropWhile p) else none

/-- Greedy `p*`: maximal (possibly empty) run. -/
def matchStar (p : Char → Bool) (s : Str) : Str := s.dropWhile p

/-- Greedy `p+` with the run as capture. -/
def capturePlus (p : Char → Bool) (s : Str) : Option (Str × Str) :=
  match s with
  | [] => none
  | c :: rest => if p c then some (c :: rest.takeWhile p, rest.dropWhile p) else none

/-- Python regex `[a-z_]` (ASCII). -/
def isLowerUnd (c : Char) : Bool := ('a' ≤ c && c ≤ 'z') || c = '_'

/-- Python regex `[A-Z]` (ASCII). -/
def isUpperAscii (c : Char) : Bool := 'A' ≤ c && c ≤ 'Z'

/-- `[a-z_]\w*` with capture. -/
def captureLowerWord (s : Str) : Option (Str × Str) :=
  match s with
  | [] => none
  | c :: rest =>
    if isLowerUnd c then some (c :: rest.takeWhile isWordChar, rest.dropWhile isWordChar)
    else none

/-- `[A-Z]\w*` with capture. -/
def captureUpperWord (s : Str) : Option (Str × Str) :=
  match s with
  | [] => none
  | c :: rest =>
    if isUpperAscii c then some (c :: rest.takeWhile isWordChar, rest.dropWhile isWordChar)
    else none

/-- `def\s+(\w+)\s*\(` — the documentation check's function counter. -/
def mDefParen (s : Str) : Option (Str × Str) :=
  (matchLit ("def".toList) s).bind (fun r1 =>
  (matchPlus isPySpace r1).bind (fun r2 =>
  (capturePlus isWordChar r2).bind (fun cr =>
  (matchLit ['('] (matchStar isPySpace cr.2)).map (fun r4 => (cr.1, r4)))))

/-- `def\s+\w+\s*\([^)]*\)\s*:\s*"""` — documented functions. -/
def mDefDoc (s : Str) : Option (Str × Str) :=
  (mDefParen s).bind (fun cr =>
  (matchLit [')'] (matchStar (fun c => !(c = ')')) cr.2)).bind (fun r2 =>
  (matchLit [':'] (matchStar isPySpace r2)).bind (fun r3 =>
  (matchLit ['"', '"', '"'] (matchStar isPySpace r3)).map (fun r4 => ([], r4)))))

/-- `class\s+(\w+)` — class counter (documentation and naming checks). -/
def mClassWord (s : Str) : Option (Str × Str) :=
  (matchLit ("class".toList) s).bind (fun r1 =>
  (matchPlus isPySpace r1).bind (fun r2 =>
  capturePlus isWordChar r2))

/-- `class\s+\w+[^:]*:\s*"""` — documented classes. -/
def mClassDoc (s : Str) : Option (Str × Str) :=
  (mClassWord s).bind (fun cr =>
  (matchLit [':'] (matchStar (fun c => !(c = ':')) cr.2)).bind (fun r2 =>
  (matchLit ['"', '"', '"'] (matchStar isPySpace r2)).map (fun r3 => ([], r3))))

/-- `class\s+([a-z_]\w*)` — naming violations for classes. -/
def mClassLower (s : Str) : Option (Str × Str) :=
  (matchLit ("class".toList) s).bind (fun r1 =>
  (matchPlus isPySpace r1).bind (fun r2 =>
  captureLowerWord r2))

/-- `def\s+(\w+)` — naming check's function counter. -/
def mDefWord (s : Str) : Option (Str × Str) :=
  (matchLit ("def".toList) s).bind (fun r1 =>
  (matchPlus isPySpace r1).bind (fun r2 =>
  capturePlus isWordChar r2))

/-- `def\s+([A-Z]\w*)\s*\(` — naming violations for functions. -/
def mDefUpperParen (s : Str) : Option (Str × Str) :=
  (matchLit ("def".toList) s).bind (fun r1 =>
  (matchPlus isPySpace r1).bind (fun cr2 =>
  (captureUpperWord cr2).bind (fun cr =>
  (matchLit ['('] (matchStar isPySpace cr.2)).map (fun r4 => (cr.1, r4)))))

/-- `def\s+test_\w+` — test-function counter. -/
def mDefTest (s : Str) : Option (Str × Str) :=
  (matchLit ("def".toList) s).bind (fun r1 =>
  (matchPlus isPySpace r1).bind (fun r2 =>
  (matchLit ("test_".toList) r2).bind (fun r3 =>
  (matchPlus isWordChar r3).map (fun r4 => ([], r4)))))

/-- `it\s*\(|test\s*\(` — test-call counter. -/
def mItOrTestCall (s : Str) : Option (Str × Str) :=
  match (matchLit ("it".toList) s).bind
      (fun r1 => matchLit ['('] (matchStar isPySpace r1)) with
  | some r => some ([], r)
  | none =>
    ((matchLit ("test".toList) s).bind
      (fun r1 => matchLit ['('] (matchStar isPySpace r1))).map (fun r => ([], r))

/-- The `re.findall` scanning loop: try the matcher at every position, jump
past each match. -/
def scanMatches (m : Matcher) : Str → List Str
  | [] => []
  | c :: rest =>
    match m (c :: rest) with
    | some (cap, r) =>
      if h : r.length < (c :: rest).length then cap :: scanMatches m r
      else cap :: scanMatches m rest
    | none => scanMatches m rest
termination_by s => s.length
decreasing_by
  all_goals first | exact h | simp

/-- `len(re.findall(pattern, s))`. -/
def scanCount (m : Matcher) (s : Str) : Nat := (scanMatches m s).length

/-! ### The complexity check's function-block pattern
`def\s+(\w+)\s*\([^)]*\):(.*?)(?=\ndef\s|\nclass\s|\Z)` with `re.DOTALL`:
the lazy body group extends to the first position followed by a top-level
`def`/`class` on a new line, or to the end of the text. -/

/-- The lookahead `(?=\ndef\s|\nclass\s|\Z)` at a position (end-of-string is
handled by the caller). -/
def isBlockBoundary (s : Str) : Bool :=
  (((matchLit ("\ndef".toList) s).bind (matchPlus isPySpace)).isSome) ||
    (((matchLit ("\nclass".toList) s).bind (matchPlus isPySpace)).isSome)

/-- The lazy `(.*?)` scan: shortest body whose suffix is a block boundary or
the end of the text; returns `(body, rest)` with the lookahead unconsumed. -/
def findBody : Str → (Str × Str)
  | [] => ([], [])
  | c :: rest =>
    if isBlockBoundary (c :: rest) then ([], c :: rest)
    else
      let (b, r) := findBody rest
      (c :: b, r)

/-- The whole function-block matcher; capture is `(name, body)` encoded as
the pair. -/
def mFuncBlock (s : Str) : Option ((Str × Str) × Str) :=
  (matchLit ("def".toList) s).bind (fun r1 =>
  (matchPlus isPySpace r1).bind (fun r2 =>
  (capturePlus isWordChar r2).bind (fun cr =>
  ((matchLit ['('] (matchStar isPySpace cr.2)).bind (fun r4 =>
   (matchLit [')'] (matchStar (fun c => !(c = ')')) r4)).bind (fun r5 =>
   matchLit [':'] r5))).map (fun r6 =>
    let br := findBody r6
    ((cr.1, br.1), br.2)))))

/-- Scan the text for function blocks (`re.findall` with the pattern above). -/
def scanFuncBlocks : Str → List (Str × Str)
  | [] => []
  | c :: rest =>
    match mFuncBlock (c :: rest) with
    | some (cap, r) =>
      if h : r.length < (c :: rest).length then cap :: scanFuncBlocks r
      else cap :: scanFuncBlocks rest
    | none => scanFuncBlocks rest
termination_by s => s.length
decreasing_by
  all_goals first | exact h | simp

/-- Is `kw` a whole word at the head of `s` (both `\b`s), given the previous
character? -/
def wordAt (kw : Str) (prev : Option Char) (s : Str) : Bool :=
  (match prev with
   | none => true
   | some p => !isWordChar p) &&
    (match matchLit kw s with
     | some r =>
       (match r.head? with
        | none => true
        | some c => !isWordChar c)
     | none => false)

/-- `len(re.findall(r'\bKW\b', s))` for a non-empty word `kw`: scan with a
one-character lookbehind, jumping over matches. -/
def countWordAux (kw : Str) (prev : Option Char) : Str → Nat
  | [] => 0
  | c :: rest =>
    if wordAt kw prev (c :: rest) then
      if h : (c :: rest).length - kw.length < (c :: rest).length then
        1 + countWordAux kw kw.getLast? ((c :: rest).drop kw.length)
      else 1 + countWordAux kw (some c) rest
    else countWordAux kw (some c) rest
termination_by s => s.length
decreasing_by
  all_goals simp <;> omega

def countWord (kw : Str) (s : Str) : Nat := countWordAux kw none s

/-- `len(re.findall(r'\band\b|\bor\b', s))`. -/
def countAndOrAux (prev : Option Char) : Str → Nat
  | [] => 0
  | c :: rest =>
    if wordAt ("and".toList) prev (c :: rest) then 1 + countAndOrAux (some 'd') (rest.drop 2)
    else if wordAt ("or".toList) prev (c :: rest) then 1 + countAndOrAux (some 'r') (rest.drop 1)
    else countAndOrAux (some c) rest
termination_by s => s.length
decreasing_by
  all_goals simp <;> omega

def countAndOr (s : Str) : Nat := countAndOrAux none s

/-! ### Best-practices scanners -/

/-- Case-insensitive literal match. -/
def matchLitCI (lit : Str) (s : Str) : Option Str :=
  match lit, s with
  | [], s => some s
  | _ :: _, [] => none
  | l :: ls, c :: cs => if c.toLower = l then matchLitCI ls cs else none

/-- A single `"` or `'`. -/
def matchQuote (s : Str) : Option Str :=
  match s with
  | [] => none
  | c :: rest => if c = '"' || c = '\'' then some rest else none

/-- One candidate position of
`(password|secret|api_key)\s*=\s*["\'][^"\']+["\']` (IGNORECASE). -/
def secretAt (s : Str) : Bool :=
  [("password".toList), ("secret".toList), ("api_key".toList)].any (fun kw =>
    ((matchLitCI kw s).bind (fun r1 =>
     (matchLit ['='] (matchStar isPySpace r1)).bind (fun r2 =>
     (matchQuote (matchStar isPySpace r2)).bind (fun r3 =>
     (matchPlus (fun c => !(c = '"' || c = '\'')) r3).bind (fun r4 =>
     matchQuote r4))))).isSome)

/-- `re.search` of the hardcoded-secret pattern: try at every position. -/
def searchSecret : Str → Bool
  | [] => false
  | c :: rest => secretAt (c :: rest) || searchSecret rest

/-- `len(re.findall(r'TODO|FIXME', s))`. -/
def countTodoFixme : Str → Nat
  | [] => 0
  | c :: rest =>
    if ("TODO".toList).isPrefixOf (c :: rest) then 1 + countTodoFixme (rest.drop 3)
    else if ("FIXME".toList).isPrefixOf (c :: rest) then 1 + countTodoFixme (rest.drop 4)
    else countTodoFixme rest
termination_by s => s.length
decreasing_by
  all_goals simp <;> omega

/-! ### The five sub-checks (`QualityCheckerTool`) -/

/-- One input file (`{path, content, language}`). -/
structure QFile where
  path : Str
  content : Str
  language : Str

structure DocResult where
  score : ℚ
  functionCoverage : ℚ
  classCoverage : ℚ
  totalItems : Nat
  documentedItems : Nat

structure TestResult where
  score : ℚ
  testFiles : Nat
  totalFiles : Nat
  testFunctions : Nat
  hasTests : Bool

structure NamingResult where
  score : ℚ
  violations : List Str
  totalViolations : Nat
  totalChecks : Nat

structure ComplexityResult where
  score : ℚ
  complexFunctions : List (Str × Nat)
  totalComplex : Nat
  totalFunctions : Nat

structure PracticesResult where
  score : ℚ
  issues : List Str
  totalIssues : Nat
  checksPassed : Nat
  totalChecks : Nat

/-- `QualityCheckerTool._check_documentation` (the per-file accumulation
loop is written as sums over the `language == "python"` files). -/
def checkDocumentation (files : List QFile) : DocResult :=
  let pyFiles := files.filter (fun f => f.language = ("python".toList))
  let totalFunctions := (pyFiles.map (fun f => scanCount mDefParen f.content)).sum
  let documentedFunctions := (pyFiles.map (fun f => scanCount mDefDoc f.content)).sum
  let totalClasses := (pyFiles.map (fun f => scanCount mClassWord f.content)).sum
  let documentedClasses := (pyFiles.map (fun f => scanCount mClassDoc f.content)).sum
  let funcCoverage : ℚ :=
    if 0 < totalFunctions then (documentedFunctions : ℚ) / (totalFunctions : ℚ) * 100 else 0
  let classCoverage : ℚ :=
    if 0 < totalClasses then (documentedClasses : ℚ) / (totalClasses : ℚ) * 100 else 0
  let overallCoverage : ℚ :=
    if 0 < totalFunctions + totalClasses then (funcCoverage + classCoverage) / 2 else 0
  { score := pyRound2 overallCoverage
    functionCoverage := pyRound2 funcCoverage
    classCoverage := pyRound2 classCoverage
    totalItems := totalFunctions + totalClasses
    documentedItems := documentedFunctions + documentedClasses }

/-- `QualityCheckerTool._check_testing`. -/
def checkTesting (files : List QFile) : TestResult :=
  let totalFiles := files.length
  let testFilesList := files.filter (fun f =>
    [("test_".toList), ("_test".toList), ("spec".toList), ("test/".toList)].any
      (fun ind => containsSub ind (pyLower f.path)))
  let testFiles := testFilesList.length
  let testFunctions := (testFilesList.map (fun f =>
    scanCount mDefTest f.content + scanCount mItOrTestCall f.content)).sum
  let estimatedCoverage : ℚ :=
    min ((testFiles : ℚ) / max ((totalFiles : ℚ) * 0.3) 1 * 100) 100
  { score := pyRound2 estimatedCoverage
    testFiles := testFiles
    totalFiles := totalFiles
    testFunctions := testFunctions
    hasTests := 0 < testFiles }

/-- `QualityCheckerTool._check_naming_conventions`.  (The loop's third
block compiles a constants regex whose result is unused; only its flat
`total_checks += 1` per Python file is kept.) -/
def checkNamingConventions (files : List QFile) : NamingResult :=
  let pyFiles := files.filter (fun f => f.language = ("python".toList))
  let violations := (pyFiles.map (fun f =>
    (scanMatches mClassLower f.content).map (fun c =>
      ("Classe '".toList) ++ c ++ ("' não está em PascalCase".toList)) ++
    (scanMatches mDefUpperParen f.content).map (fun fn =>
      ("Função '".toList) ++ fn ++ ("' não está em snake_case".toList)))).flatten
  let totalChecks := (pyFiles.map (fun f =>
    scanCount mClassWord f.content + scanCount mDefWord f.content + 1)).sum
  let complianceRate : ℚ :=
    ((totalChecks : ℚ) - (violations.length : ℚ)) / max (totalChecks : ℚ) 1 * 100
  { score := pyRound2 complianceRate
    violations := violations.take 10
    totalViolations := violations.length
    totalChecks := totalChecks }

/-- `QualityCheckerTool._check_complexity`. -/
def checkComplexity (files : List QFile) : ComplexityResult :=
  let blocks := (files.map (fun f => scanFuncBlocks f.content)).flatten
  let totalFunctions := blocks.length
  let complexFunctions := blocks.filterMap (fun nb =>
    let complexity := 1 + countWord ("if".toList) nb.2 + countWord ("for".toList) nb.2 +
      countWord ("while".toList) nb.2 + countAndOr nb.2
    if 10 < complexity then some (nb.1, complexity) else none)
  let complexityScore : ℚ :=
    max 0 (100 - ((complexFunctions.length : ℚ) / max (totalFunctions : ℚ) 1 * 100))
  { score := pyRound2 complexityScore
    complexFunctions := complexFunctions.take 5
    totalComplex := complexFunctions.length
    totalFunctions := totalFunctions }

/-- The four per-file best-practice checks; returns (issues, checks passed). -/
def practicesForFile (f : QFile) : List Str × Nat :=
  let lines := (splitLines f.content).length
  let r1 : List Str × Nat :=
    if 500 < lines then
      ([f.path ++ (": Arquivo muito grande (".toList) ++ Architecture.natToStr lines ++
        (" linhas)".toList)], 0)
    else ([], 1)
  let r2 : List Str × Nat :=
    if searchSecret f.content then ([f.path ++ (": Possível secret hardcoded".toList)], 0)
    else ([], 1)
  let importSection := joinLines ((splitLines f.content).take 30)
  let rest := joinLines ((splitLines f.content).drop 30)
  let r3 : List Str × Nat :=
    if containsSub ("import".toList) importSection then
      if containsSub ("import ".toList) rest && containsSub ("def ".toList) rest then
        ([f.path ++ (": Imports não estão no topo".toList)], 0)
      else ([], 1)
    else ([], 1)
  let todos := countTodoFixme f.content
  let r4 : List Str × Nat :=
    if 5 < todos then
      ([f.path ++ (": Muitos TODOs/FIXMEs (".toList) ++ Architecture.natToStr todos ++
        (")".toList)], 0)
    else ([], 1)
  (r1.1 ++ r2.1 ++ r3.1 ++ r4.1, r1.2 + r2.2 + r3.2 + r4.2)

/-- `QualityCheckerTool._check_best_practices`. -/
def checkBestPractices (files : List QFile) : PracticesResult :=
  let perFile := files.map practicesForFile
  let issues := (perFile.map (fun r => r.1)).flatten
  let checksPassed := (perFile.map (fun r => r.2)).sum
  let totalChecks := 4 * files.length
  let complianceRate : ℚ := (checksPassed : ℚ) / max (totalChecks : ℚ) 1 * 100
  { score := pyRound2 complianceRate
    issues := issues.take 10
    totalIssues := issues.length
    checksPassed := checksPassed
    totalChecks := totalChecks }

/-- `QualityCheckerTool._calculate_overall_score`: the weights dict is
iterated in insertion order (documentation, testing, naming, complexity,
best_practices). -/
def calculateOverallScore (doc test nam comp bp : ℚ) : ℚ :=
  pyRound2 (0 + doc * 0.25 + test * 0.30 + nam * 0.15 + comp * 0.15 + bp * 0.15)

/-- `QualityCheckerTool._get_grade`. -/
def getGrade (score : ℚ) : Str :=
  if 90 ≤ score then ("A (Excelente)".toList)
  else if 80 ≤ score then ("B (Bom)".toList)
  else if 70 ≤ score then ("C (Regular)".toList)
  else if 60 ≤ score then ("D (Precisa Melhorar)".toList)
  else ("F (Inadequado)".toList)

/-- Python f-string `{q:.1f}` (one decimal, banker's rounding; the scores
formatted here are non-negative). -/
def formatFixed1 (q : ℚ) : Str :=
  let n := pyRoundHalfEven (q * 10)
  Architecture.intToStr (n / 10) ++ ['.'] ++ Architecture.intToStr (n % 10)

/-- `QualityCheckerTool._generate_recommendations`. -/
def generateRecommendations (doc test nam comp bp : ℚ) : List Str :=
  let recommendations :=
    (if doc < 70 then
      [("↳ Documentação: ".toList) ++ formatFixed1 doc ++
        ("% - Adicione docstrings em funções e classes. Use padrões como Google Style ou NumPy Style.".toList)]
     else []) ++
    (if test < 70 then
      [("↳ Testes: ".toList) ++ formatFixed1 test ++
        ("% - Implemente testes unitários. Considere usar pytest, unittest ou jest.".toList)]
     else []) ++
    (if nam < 80 then
      [("↳ Nomenclatura: ".toList) ++ formatFixed1 nam ++
        ("% - Siga convenções: PascalCase para classes, snake_case para funções.".toList)]
     else []) ++
    (if comp < 70 then
      [("↳ Complexidade: ".toList) ++ formatFixed1 comp ++
        ("% - Refatore funções complexas. Divida em funções menores e mais testáveis.".toList)]
     else []) ++
    (if bp < 75 then
      [("↳ Boas Práticas: ".toList) ++ formatFixed1 bp ++
        ("% - Organize imports, evite hardcoded secrets, reduza TODOs.".toList)]
     else [])
  match recommendations with
  | [] => [("✔ Código de alta qualidade!".toList)]
  | r :: rs => r :: rs

/-- `QualityCheckerTool._generate_summary`. -/
def generateSummary (overallScore : ℚ) (recommendations : List Str) : Str :=
  ("Score Geral: ".toList) ++ formatFixed1 overallScore ++ ("/100 - ".toList) ++
    getGrade overallScore ++ ("\n\n".toList) ++
    (if 85 ≤ overallScore then ("Código bem estruturado e de alta qualidade. ".toList)
     else if 70 ≤ overallScore then ("Código funcional com espaço para melhorias. ".toList)
     else ("Código necessita de atenção urgente em várias áreas. ".toList)) ++
    ("\n\nPrincipais ações: ".toList) ++
    Architecture.natToStr recommendations.length ++ (" recomendação(ões).".toList)

structure QualityReport where
  overallQualityScore : ℚ
  qualityGrade : Str
  documentation : DocResult
  testing : TestResult
  namingConventions : NamingResult
  codeComplexity : ComplexityResult
  bestPractices : PracticesResult
  recommendations : List Str
  summary : Str

/-- `QualityCheckerTool.execute`. -/
def execute (files : List QFile) : QualityReport :=
  let documentationScore := checkDocumentation files
  let testingScore := checkTesting files
  let namingScore := checkNamingConventions files
  let complexityScore := checkComplexity files
  let bestPracticesScore := checkBestPractices files
  let overallScore := calculateOverallScore documentationScore.score testingScore.score
    namingScore.score complexityScore.score bestPracticesScore.score
  let recommendations := generateRecommendations documentationScore.score testingScore.score
    namingScore.score complexityScore.score bestPracticesScore.score
  { overallQualityScore := overallScore
    qualityGrade := getGrade overallScore
    documentation := documentationScore
    testing := testingScore
    namingConventions := namingScore
    codeComplexity := complexityScore
    bestPractices := bestPracticesScore
    recommendations := recommendations
    summary := generateSummary overallScore recommendations }

end QualityChecker

namespace QualityChecker

/-- C7: for every input file list, the overall quality score returned by the
quality checker equals the weighted sum of the five sub-scores it returns —
documentation × 0.25 + testing × 0.30 + naming × 0.15 + complexity × 0.15 +
best-practices × 0.15 — rounded to 2 decimals, so recomputing the weighted sum
from the returned sub-scores reproduces `overall_quality_score` exactly. -/
theorem c7_overall_score_weighted_sum (files : List QFile) :
    (execute files).overallQualityScore =
      pyRound2 ((execute files).documentation.score * 0.25 +
        (execute files).testing.score * 0.30 +
        (execute files).namingConventions.score * 0.15 +
        (execute files).codeComplexity.score * 0.15 +
        (execute files).bestPractices.score * 0.15) := by
  simp only [execute, calculateOverallScore]
  congr 1
  ring

end QualityChecker

namespace QualityChecker

/-! ### Domination of the counting patterns over the violation / docstring
patterns: every match of the finer pattern at a position yields a match of its
counting pattern there whose remainder extends at least as far, and neither
pattern can start a match strictly inside a counted span and end short of the
span's end, so the `re.findall` loop returns at least as many counter matches
as finer matches on every input. -/

theorem isLowerUnd_word {c : Char} (h : isLowerUnd c = true) : isWordChar c = true := by
  unfold isLowerUnd at h
  unfold isWordChar Char.isAlphanum Char.isAlpha Char.isLower
  simp only [Bool.or_eq_true, Bool.and_eq_true, decide_eq_true_eq] at h ⊢
  rcases h with ⟨h1, h2⟩ | h
  · left; left; right
    exact ⟨h1, h2⟩
  · right; exact h

theorem isUpperAscii_word {c : Char} (h : isUpperAscii c = true) : isWordChar c = true := by
  unfold isUpperAscii at h
  unfold isWordChar Char.isAlphanum Char.isAlpha Char.isUpper
  simp only [Bool.or_eq_true, Bool.and_eq_true, decide_eq_true_eq] at h ⊢
  left; left; left
  exact ⟨h.1, h.2⟩

theorem isPySpace_not_word {c : Char} (h : isPySpace c = true) : isWordChar c = false := by
  unfold isPySpace at h
  simp only [Bool.or_eq_true, decide_eq_true_eq] at h
  rcases h with ((((h | h) | h) | h) | h) | h <;> subst h <;> decide

theorem scanMatches_cons_none {m : Matcher} {c : Char} {rest : Str}
    (h : m (c :: rest) = none) :
    scanMatches m (c :: rest) = scanMatches m rest := by
  rw [scanMatches, h]

theorem scanMatches_cons_some {m : Matcher} {c : Char} {rest cap r : Str}
    (h : m (c :: rest) = some (cap, r)) :
    scanMatches m (c :: rest) =
      cap :: scanMatches m (if r.length < (c :: rest).length then r else rest) := by
  rw [scanMatches, h]
  by_cases h1 : r.length < (c :: rest).length
  · simp only [dif_pos h1, if_pos h1]
  · simp only [dif_neg h1, if_neg h1]

theorem head_dropWhile_false (p : Char → Bool) :
    ∀ (l : Str) (c : Char), (l.dropWhile p).head? = some c → p c = false := by
  intro l
  induction l with
  | nil => intro c h; simp at h
  | cons a t ih =>
    intro c h
    by_cases hp : p a = true
    · rw [List.dropWhile_cons_of_pos hp] at h
      exact ih c h
    · rw [List.dropWhile_cons_of_neg hp] at h
      simp only [List.head?_cons, Option.some.injEq] at h
      rw [← h]
      exact Bool.eq_false_iff.mpr hp

theorem matchLit_eq : ∀ (lit s a : Str), matchLit lit s = some a → s = lit ++ a := by
  intro lit
  induction lit with
  | nil =>
    intro s a h
    simp only [matchLit, Option.some.injEq] at h
    simp [h]
  | cons l ls ih =>
    intro s a h
    cases s with
    | nil => simp [matchLit] at h
    | cons c cs =>
      unfold matchLit at h
      by_cases hc : c = l
      · rw [if_pos hc] at h
        subst hc
        simpa using ih cs a h
      · rw [if_neg hc] at h
        cases h

theorem matchPlus_eq {p : Char → Bool} {s b : Str} (h : matchPlus p s = some b) :
    ∃ S, s = S ++ b ∧ S ≠ [] ∧ (∀ c ∈ S, p c = true) ∧
      (∀ c, b.head? = some c → p c = false) := by
  cases s with
  | nil => simp [matchPlus] at h
  | cons c rest =>
    simp only [matchPlus] at h
    by_cases hp : p c = true
    · rw [if_pos hp] at h
      injection h with h
      refine ⟨c :: rest.takeWhile p, ?_, by simp, ?_, ?_⟩
      · rw [← h, List.cons_append, List.takeWhile_append_dropWhile]
      · intro d hd
        rcases List.mem_cons.mp hd with rfl | hd
        · exact hp
        · exact List.mem_takeWhile_imp hd
      · intro d hd
        rw [← h] at hd
        exact head_dropWhile_false p rest d hd
    · rw [if_neg hp] at h
      cases h

theorem capturePlus_eq {p : Char → Bool} {s cap r : Str}
    (h : capturePlus p s = some (cap, r)) :
    s = cap ++ r ∧ cap ≠ [] ∧ (∀ c ∈ cap, p c = true) ∧
      (∀ c, r.head? = some c → p c = false) := by
  cases s with
  | nil => simp [capturePlus] at h
  | cons c rest =>
    simp only [capturePlus] at h
    by_cases hp : p c = true
    · rw [if_pos hp] at h
      injection h with h
      injection h with h1 h2
      refine ⟨?_, ?_, ?_, ?_⟩
      · rw [← h1, ← h2, List.cons_append, List.takeWhile_append_dropWhile]
      · rw [← h1]; simp
      · intro d hd
        rw [← h1] at hd
        rcases List.mem_cons.mp hd with rfl | hd
        · exact hp
        · exact List.mem_takeWhile_imp hd
      · intro d hd
        rw [← h2] at hd
        exact head_dropWhile_false p rest d hd
    · rw [if_neg hp] at h
      cases h

theorem suffix_append_cases {u x y : Str} (h : u <:+ x ++ y) :
    u <:+ y ∨ ∃ x', x' <:+ x ∧ x' ≠ [] ∧ u = x' ++ y := by
  induction x with
  | nil => exact Or.inl (by simpa using h)
  | cons c x₂ ih =>
    rcases List.suffix_cons_iff.mp h with rfl | h2
    · exact Or.inr ⟨c :: x₂, List.suffix_refl _, by simp, by simp⟩
    · rcases ih h2 with h3 | ⟨x', hs, hne, rfl⟩
      · exact Or.inl h3
      · exact Or.inr ⟨x', hs.trans (List.suffix_cons c x₂), hne, rfl⟩

theorem eat_word_space {S'' b r : Str} (hS : S'' ≠ []) (hSsp : ∀ c ∈ S'', isPySpace c = true)
    (hr : ∀ c, r.head? = some c → isWordChar c = false) :
    ∀ (w' L : Str), (∀ c ∈ w', isWordChar c = true) → (∀ c ∈ L, isWordChar c = true) →
      L ≠ [] → w' ++ r = L ++ (S'' ++ b) → b <:+ r := by
  intro w'
  induction w' with
  | nil =>
    intro L hw hL hLne heq
    cases L with
    | nil => exact absurd rfl hLne
    | cons l L' =>
      simp only [List.nil_append] at heq
      have : r.head? = some l := by rw [heq]; simp
      have := hr l this
      have := hL l (by simp)
      simp_all
  | cons c w'' ih =>
    intro L hw hL hLne heq
    cases L with
    | nil => exact absurd rfl hLne
    | cons l L' =>
      simp only [List.cons_append, List.cons.injEq] at heq
      obtain ⟨rfl, heq⟩ := heq
      cases L' with
      | nil =>
        simp only [List.nil_append] at heq
        cases w'' with
        | nil =>
          simp only [List.nil_append] at heq
          rw [heq]
          exact List.suffix_append S'' b
        | cons c₂ w₃ =>
          cases S'' with
          | nil => exact absurd rfl hS
          | cons s S₃ =>
            simp only [List.cons_append, List.cons.injEq] at heq
            obtain ⟨rfl, _⟩ := heq
            have h1 := hw c₂ (by simp)
            have h2 := hSsp c₂ (by simp)
            rw [isPySpace_not_word h2] at h1
            cases h1
      | cons l₂ L₂ =>
        exact ih (l₂ :: L₂) (fun d hd => hw d (List.mem_cons_of_mem _ hd))
          (fun d hd => hL d (List.mem_cons_of_mem _ hd)) (by simp) heq

theorem barrier_core {L S W r u a b : Str}
    (hLne : L ≠ []) (hLw : ∀ c ∈ L, isWordChar c = true)
    (hSne : S ≠ []) (hSsp : ∀ c ∈ S, isPySpace c = true)
    (hWw : ∀ c ∈ W, isWordChar c = true)
    (hr : ∀ c, r.head? = some c → isWordChar c = false)
    (hsuf : u <:+ L ++ (S ++ (W ++ r)))
    (hlen : u.length < (L ++ (S ++ (W ++ r))).length)
    (hu : u = L ++ a)
    (ha : ∃ S'', a = S'' ++ b ∧ S'' ≠ [] ∧ (∀ c ∈ S'', isPySpace c = true)) :
    b <:+ r := by
  obtain ⟨S'', rfl, hS''ne, hS''sp⟩ := ha
  rcases suffix_append_cases hsuf with h1 | ⟨x', hx's, hx'ne, hux⟩
  · -- u is a suffix of S ++ (W ++ r)
    rcases suffix_append_cases h1 with h2 | ⟨s', hs's, hs'ne, hus⟩
    · -- u is a suffix of W ++ r
      rcases suffix_append_cases h2 with h3 | ⟨w', hw's, hw'ne, huw⟩
      · -- u is a suffix of r: everything stays inside r
        have hb : b <:+ u := by
          rw [hu]
          exact (List.suffix_append S'' b).trans (List.suffix_append L (S'' ++ b))
        exact hb.trans h3
      · -- u = w' ++ r with w' a non-empty word run
        have hw'w : ∀ c ∈ w', isWordChar c = true := fun c hc => hWw c (hw's.mem hc)
        rw [hu] at huw
        exact eat_word_space hS''ne hS''sp hr w' L hw'w hLw hLne huw.symm
    · -- u = s' ++ (W ++ r) with s' a non-empty space run: head clash
      cases s' with
      | nil => exact absurd rfl hs'ne
      | cons sc s₂ =>
        cases L with
        | nil => exact absurd rfl hLne
        | cons lc L₂ =>
          rw [hu] at hus
          simp only [List.cons_append, List.cons.injEq] at hus
          obtain ⟨rfl, -⟩ := hus
          have h1 := hLw lc (by simp)
          have h2 := hSsp lc (hs's.mem (by simp))
          rw [isPySpace_not_word h2] at h1
          cases h1
  · -- u = x' ++ (S ++ (W ++ r)) with x' a non-empty suffix of L
    have hx'lt : x'.length < L.length := by
      by_contra hc
      push_neg at hc
      have : x' = L := List.IsSuffix.eq_of_length_le hx's hc
      subst this
      rw [hux] at hlen
      simp at hlen
    -- L is a prefix of x' ++ (S ++ W ++ r) and x' is a prefix of L
    have hLpre : L <+: x' ++ (S ++ (W ++ r)) := by
      rw [← hux, hu]
      exact ⟨S'' ++ b, rfl⟩
    have hx'preL : x' <+: L := by
      refine List.prefix_of_prefix_length_le ⟨S ++ (W ++ r), rfl⟩ hLpre ?_
      omega
    obtain ⟨L₂, hL₂⟩ := hx'preL
    have hL₂ne : L₂ ≠ [] := by
      intro hcon
      rw [hcon, List.append_nil] at hL₂
      rw [hL₂] at hx'lt
      omega
    have hL₂pre : L₂ <+: S ++ (W ++ r) := by
      have := hLpre
      rw [← hL₂] at this
      exact (List.prefix_append_right_inj x').mp this
    cases L₂ with
    | nil => exact absurd rfl hL₂ne
    | cons d D =>
      cases S with
      | nil => exact absurd rfl hSne
      | cons sc S₂ =>
        obtain ⟨t₂, ht₂⟩ := hL₂pre
        simp only [List.cons_append, List.cons.injEq] at ht₂
        obtain ⟨rfl, _⟩ := ht₂
        have h1 := hLw d (by rw [← hL₂]; exact List.mem_append_right x' (by simp))
        have h2 := hSsp d (by simp)
        rw [isPySpace_not_word h2] at h1
        cases h1

theorem scan_dominates_aux (m₁ m₂ : Matcher)
    (HA : ∀ s c₁ r₁, m₁ s = some (c₁, r₁) → ∃ c₂ r₂, m₂ s = some (c₂, r₂) ∧ r₁ <:+ r₂)
    (HB : ∀ t c₂ r₂ u c₁ r₁, m₂ t = some (c₂, r₂) → u <:+ t → u.length < t.length →
      m₁ u = some (c₁, r₁) → r₁ <:+ r₂)
    (HS1 : ∀ s c₁ r₁, m₁ s = some (c₁, r₁) → r₁ <:+ s)
    (HS2 : ∀ s c₂ r₂, m₂ s = some (c₂, r₂) → r₂ <:+ s) :
    ∀ n t u, t.length + u.length ≤ n → u <:+ t →
      (scanMatches m₁ u).length ≤ (scanMatches m₂ t).length := by
  intro n
  induction n with
  | zero =>
    intro t u hn hsuf
    have hu : u = [] := List.length_eq_zero.mp (by omega)
    rw [hu]
    simp [scanMatches]
  | succ n IH =>
    intro t u hn hsuf
    cases u with
    | nil => simp [scanMatches]
    | cons d u' =>
      cases t with
      | nil =>
        have := hsuf.length_le
        simp at this
      | cons c t' =>
        cases hm1 : m₁ (d :: u') with
        | none =>
          rw [scanMatches_cons_none hm1]
          refine IH (c :: t') u' ?_ ((List.suffix_cons d u').trans hsuf)
          simp only [List.length_cons] at hn ⊢
          omega
        | some p =>
          obtain ⟨c₁, r₁⟩ := p
          rcases List.suffix_cons_iff.mp hsuf with heq | hsuf'
          · -- u = t: both scanners sit at the same position
            obtain ⟨rfl, rfl⟩ := List.cons.injEq .. |>.mp heq
            obtain ⟨c₂, r₂, hm2, hr12⟩ := HA _ c₁ r₁ hm1
            rw [scanMatches_cons_some hm1, scanMatches_cons_some hm2]
            simp only [List.length_cons]
            apply Nat.succ_le_succ
            by_cases h2 : r₂.length < u'.length + 1
            · have h1 : r₁.length < u'.length + 1 :=
                Nat.lt_of_le_of_lt hr12.length_le h2
              rw [if_pos h1, if_pos h2]
              refine IH r₂ r₁ ?_ hr12
              have := hr12.length_le
              simp only [List.length_cons] at hn
              omega
            · rw [if_neg h2]
              have hs2 := HS2 _ _ _ hm2
              have hs2l := hs2.length_le
              simp only [List.length_cons] at hs2l
              have hr₂eq : r₂ = d :: u' := hs2.eq_of_length (by simp; omega)
              by_cases h1 : r₁.length < u'.length + 1
              · rw [if_pos h1]
                have hr1t' : r₁ <:+ u' := by
                  rw [hr₂eq] at hr12
                  rcases List.suffix_cons_iff.mp hr12 with hcon | h
                  · rw [hcon] at h1
                    simp only [List.length_cons] at h1
                    omega
                  · exact h
                refine IH u' r₁ ?_ hr1t'
                have := hr1t'.length_le
                simp only [List.length_cons] at hn
                omega
              · rw [if_neg h1]
                refine IH u' u' ?_ (List.suffix_refl u')
                simp only [List.length_cons] at hn
                omega
          · -- u is a strict suffix of t
            have hult : (d :: u').length < (c :: t').length := by
              have h5 := hsuf'.length_le
              simp only [List.length_cons] at h5 ⊢
              omega
            cases hm2 : m₂ (c :: t') with
            | none =>
              rw [scanMatches_cons_none hm2]
              refine IH t' (d :: u') ?_ hsuf'
              simp only [List.length_cons] at hn ⊢
              omega
            | some q =>
              obtain ⟨c₂, r₂⟩ := q
              rw [scanMatches_cons_some hm1, scanMatches_cons_some hm2]
              simp only [List.length_cons]
              apply Nat.succ_le_succ
              have hr12 : r₁ <:+ r₂ := HB _ c₂ r₂ _ c₁ r₁ hm2 hsuf hult hm1
              simp only [List.length_cons] at hult hn
              by_cases h2 : r₂.length < t'.length + 1
              · rw [if_pos h2]
                by_cases h1 : r₁.length < u'.length + 1
                · rw [if_pos h1]
                  refine IH r₂ r₁ ?_ hr12
                  omega
                · rw [if_neg h1]
                  have hs1 := HS1 _ _ _ hm1
                  have hs1l := hs1.length_le
                  simp only [List.length_cons] at hs1l
                  have hr₁eq : r₁ = d :: u' := hs1.eq_of_length (by simp; omega)
                  have hu'r₂ : u' <:+ r₂ := by
                    refine List.IsSuffix.trans ?_ hr12
                    rw [hr₁eq]
                    exact List.suffix_cons d u'
                  refine IH r₂ u' ?_ hu'r₂
                  omega
              · rw [if_neg h2]
                have hs2 := HS2 _ _ _ hm2
                have hs2l := hs2.length_le
                simp only [List.length_cons] at hs2l
                have hr₂eq : r₂ = c :: t' := hs2.eq_of_length (by simp; omega)
                by_cases h1 : r₁.length < u'.length + 1
                · rw [if_pos h1]
                  have hr1t' : r₁ <:+ t' := by
                    rw [hr₂eq] at hr12
                    rcases List.suffix_cons_iff.mp hr12 with hcon | h
                    · rw [hcon] at h1
                      simp only [List.length_cons] at h1
                      omega
                    · exact h
                  refine IH t' r₁ ?_ hr1t'
                  omega
                · rw [if_neg h1]
                  refine IH t' u' ?_ ((List.suffix_cons d u').trans hsuf')
                  omega

theorem scanCount_le_of_dominates (m₁ m₂ : Matcher)
    (HA : ∀ s c₁ r₁, m₁ s = some (c₁, r₁) → ∃ c₂ r₂, m₂ s = some (c₂, r₂) ∧ r₁ <:+ r₂)
    (HB : ∀ t c₂ r₂ u c₁ r₁, m₂ t = some (c₂, r₂) → u <:+ t → u.length < t.length →
      m₁ u = some (c₁, r₁) → r₁ <:+ r₂)
    (HS1 : ∀ s c₁ r₁, m₁ s = some (c₁, r₁) → r₁ <:+ s)
    (HS2 : ∀ s c₂ r₂, m₂ s = some (c₂, r₂) → r₂ <:+ s) (s : Str) :
    (scanMatches m₁ s).length ≤ (scanMatches m₂ s).length :=
  scan_dominates_aux m₁ m₂ HA HB HS1 HS2 (s.length + s.length) s s le_rfl (List.suffix_refl s)










theorem matchLit_suffix {lit s a : Str} (h : matchLit lit s = some a) : a <:+ s :=
  ⟨lit, (matchLit_eq lit s a h).symm⟩

theorem matchStar_suffix (p : Char → Bool) (s : Str) : matchStar p s <:+ s :=
  List.dropWhile_suffix p

theorem captureLowerWord_to_word {s cap r : Str} (h : captureLowerWord s = some (cap, r)) :
    capturePlus isWordChar s = some (cap, r) := by
  cases s with
  | nil => simp [captureLowerWord] at h
  | cons c rest =>
    simp only [captureLowerWord] at h
    by_cases hc : isLowerUnd c = true
    · rw [if_pos hc] at h
      simp only [capturePlus]
      rw [if_pos (isLowerUnd_word hc)]
      exact h
    · rw [if_neg hc] at h
      cases h

theorem captureUpperWord_to_word {s cap r : Str} (h : captureUpperWord s = some (cap, r)) :
    capturePlus isWordChar s = some (cap, r) := by
  cases s with
  | nil => simp [captureUpperWord] at h
  | cons c rest =>
    simp only [captureUpperWord] at h
    by_cases hc : isUpperAscii c = true
    · rw [if_pos hc] at h
      simp only [capturePlus]
      rw [if_pos (isUpperAscii_word hc)]
      exact h
    · rw [if_neg hc] at h
      cases h

theorem mClassWord_shape {t c₂ r₂ : Str} (h : mClassWord t = some (c₂, r₂)) :
    ∃ S, t = ("class".toList) ++ (S ++ (c₂ ++ r₂)) ∧ S ≠ [] ∧
      (∀ c ∈ S, isPySpace c = true) ∧ c₂ ≠ [] ∧ (∀ c ∈ c₂, isWordChar c = true) ∧
      (∀ c, r₂.head? = some c → isWordChar c = false) := by
  unfold mClassWord at h
  obtain ⟨a, ha, h⟩ := Option.bind_eq_some.mp h
  obtain ⟨b, hb, hcap⟩ := Option.bind_eq_some.mp h
  have hta := matchLit_eq _ _ _ ha
  obtain ⟨S, haS, hSne, hSsp, hbh⟩ := matchPlus_eq hb
  obtain ⟨hbc, hcne, hcw, hrh⟩ := capturePlus_eq hcap
  exact ⟨S, by rw [hta, haS, hbc], hSne, hSsp, hcne, hcw, hrh⟩

theorem mClassWord_suffix {t c₂ r₂ : Str} (h : mClassWord t = some (c₂, r₂)) : r₂ <:+ t := by
  obtain ⟨S, ht, -⟩ := mClassWord_shape h
  rw [ht]
  exact ((List.suffix_append c₂ r₂).trans (List.suffix_append S _)).trans
    (List.suffix_append _ _)

theorem mClassWord_barrier {t c₂ r₂ u c₂' r₂' : Str} (h2 : mClassWord t = some (c₂, r₂))
    (hsuf : u <:+ t) (hlen : u.length < t.length)
    (h2' : mClassWord u = some (c₂', r₂')) : r₂' <:+ r₂ := by
  obtain ⟨S, ht, hSne, hSsp, hWne, hWw, hrh⟩ := mClassWord_shape h2
  unfold mClassWord at h2'
  obtain ⟨a, ha, h'⟩ := Option.bind_eq_some.mp h2'
  obtain ⟨b, hb, hcap⟩ := Option.bind_eq_some.mp h'
  have hu : u = ("class".toList) ++ a := matchLit_eq _ _ _ ha
  obtain ⟨S'', haS, hS''ne, hS''sp, hbh⟩ := matchPlus_eq hb
  rw [ht] at hsuf hlen
  have hbr : b <:+ r₂ :=
    barrier_core (by decide) (by decide) hSne hSsp hWw hrh hsuf hlen hu
      ⟨S'', haS, hS''ne, hS''sp⟩
  obtain ⟨hbc, -, -, -⟩ := capturePlus_eq hcap
  exact (hbc ▸ List.suffix_append c₂' r₂').trans hbr

theorem mDefWord_shape {t c₂ r₂ : Str} (h : mDefWord t = some (c₂, r₂)) :
    ∃ S, t = ("def".toList) ++ (S ++ (c₂ ++ r₂)) ∧ S ≠ [] ∧
      (∀ c ∈ S, isPySpace c = true) ∧ c₂ ≠ [] ∧ (∀ c ∈ c₂, isWordChar c = true) ∧
      (∀ c, r₂.head? = some c → isWordChar c = false) := by
  unfold mDefWord at h
  obtain ⟨a, ha, h⟩ := Option.bind_eq_some.mp h
  obtain ⟨b, hb, hcap⟩ := Option.bind_eq_some.mp h
  have hta := matchLit_eq _ _ _ ha
  obtain ⟨S, haS, hSne, hSsp, hbh⟩ := matchPlus_eq hb
  obtain ⟨hbc, hcne, hcw, hrh⟩ := capturePlus_eq hcap
  exact ⟨S, by rw [hta, haS, hbc], hSne, hSsp, hcne, hcw, hrh⟩

theorem mDefWord_suffix {t c₂ r₂ : Str} (h : mDefWord t = some (c₂, r₂)) : r₂ <:+ t := by
  obtain ⟨S, ht, -⟩ := mDefWord_shape h
  rw [ht]
  exact ((List.suffix_append c₂ r₂).trans (List.suffix_append S _)).trans
    (List.suffix_append _ _)

theorem mDefWord_barrier {t c₂ r₂ u c₂' r₂' : Str} (h2 : mDefWord t = some (c₂, r₂))
    (hsuf : u <:+ t) (hlen : u.length < t.length)
    (h2' : mDefWord u = some (c₂', r₂')) : r₂' <:+ r₂ := by
  obtain ⟨S, ht, hSne, hSsp, hWne, hWw, hrh⟩ := mDefWord_shape h2
  unfold mDefWord at h2'
  obtain ⟨a, ha, h'⟩ := Option.bind_eq_some.mp h2'
  obtain ⟨b, hb, hcap⟩ := Option.bind_eq_some.mp h'
  have hu : u = ("def".toList) ++ a := matchLit_eq _ _ _ ha
  obtain ⟨S'', haS, hS''ne, hS''sp, hbh⟩ := matchPlus_eq hb
  rw [ht] at hsuf hlen
  have hbr : b <:+ r₂ :=
    barrier_core (by decide) (by decide) hSne hSsp hWw hrh hsuf hlen hu
      ⟨S'', haS, hS''ne, hS''sp⟩
  obtain ⟨hbc, -, -, -⟩ := capturePlus_eq hcap
  exact (hbc ▸ List.suffix_append c₂' r₂').trans hbr

theorem mDefParen_shape {t c₂ r₂ : Str} (h : mDefParen t = some (c₂, r₂)) :
    ∃ S P m, t = ("def".toList) ++ (S ++ (c₂ ++ m)) ∧ S ≠ [] ∧
      (∀ c ∈ S, isPySpace c = true) ∧ c₂ ≠ [] ∧ (∀ c ∈ c₂, isWordChar c = true) ∧
      (∀ c, m.head? = some c → isWordChar c = false) ∧
      m = P ++ ('(' :: r₂) ∧ (∀ c ∈ P, isPySpace c = true) := by
  unfold mDefParen at h
  obtain ⟨a, ha, h⟩ := Option.bind_eq_some.mp h
  obtain ⟨b, hb, h⟩ := Option.bind_eq_some.mp h
  obtain ⟨cr, hcr, h⟩ := Option.bind_eq_some.mp h
  obtain ⟨r4, hlit, heq⟩ := Option.map_eq_some'.mp h
  obtain ⟨rfl, rfl⟩ := Prod.mk.injEq .. |>.mp heq
  have hta := matchLit_eq _ _ _ ha
  obtain ⟨S, haS, hSne, hSsp, hbh⟩ := matchPlus_eq hb
  obtain ⟨cap, m⟩ := cr
  obtain ⟨hbc, hcne, hcw, hmh⟩ := capturePlus_eq hcr
  have hm : matchStar isPySpace m = '(' :: r4 := matchLit_eq _ _ _ hlit
  refine ⟨S, m.takeWhile isPySpace, m, by rw [hta, haS, hbc], hSne, hSsp, hcne, hcw, hmh,
    ?_, ?_⟩
  · have hsplit : m.takeWhile isPySpace ++ m.dropWhile isPySpace = m :=
      List.takeWhile_append_dropWhile isPySpace m
    rw [show m.dropWhile isPySpace = '(' :: r4 from hm] at hsplit
    exact hsplit.symm
  · intro c hc
    exact List.mem_takeWhile_imp hc

theorem mDefParen_suffix {t c₂ r₂ : Str} (h : mDefParen t = some (c₂, r₂)) : r₂ <:+ t := by
  obtain ⟨S, P, m, ht, -, -, -, -, -, hm, -⟩ := mDefParen_shape h
  rw [ht, hm]
  have h1 : r₂ <:+ P ++ ('(' :: r₂) :=
    (List.suffix_cons '(' r₂).trans (List.suffix_append P _)
  exact ((h1.trans (List.suffix_append c₂ _)).trans (List.suffix_append S _)).trans
    (List.suffix_append _ _)

theorem mDefParen_barrier {t c₂ r₂ u c₂' r₂' : Str} (h2 : mDefParen t = some (c₂, r₂))
    (hsuf : u <:+ t) (hlen : u.length < t.length)
    (h2' : mDefParen u = some (c₂', r₂')) : r₂' <:+ r₂ := by
  obtain ⟨S, P, m, ht, hSne, hSsp, hWne, hWw, hmh, hm, hPsp⟩ := mDefParen_shape h2
  unfold mDefParen at h2'
  obtain ⟨a, ha, h'⟩ := Option.bind_eq_some.mp h2'
  obtain ⟨b, hb, h'⟩ := Option.bind_eq_some.mp h'
  obtain ⟨cr, hcr, h'⟩ := Option.bind_eq_some.mp h'
  obtain ⟨r4, hlit, heq⟩ := Option.map_eq_some'.mp h'
  obtain ⟨rfl, rfl⟩ := Prod.mk.injEq .. |>.mp heq
  have hu : u = ("def".toList) ++ a := matchLit_eq _ _ _ ha
  obtain ⟨S'', haS, hS''ne, hS''sp, hbh⟩ := matchPlus_eq hb
  rw [ht] at hsuf hlen
  have hbr : b <:+ m :=
    barrier_core (by decide) (by decide) hSne hSsp hWw hmh hsuf hlen hu
      ⟨S'', haS, hS''ne, hS''sp⟩
  obtain ⟨cap, m'⟩ := cr
  obtain ⟨hbc, hcne', hcw', hmh'⟩ := capturePlus_eq hcr
  -- the inner remainder stays a suffix of m'
  have hr4m' : r4 <:+ m' := by
    have h5 : matchStar isPySpace m' = ['('] ++ r4 := matchLit_eq _ _ _ hlit
    have h7 := matchStar_suffix isPySpace m'
    rw [h5] at h7
    exact (List.suffix_cons '(' r4).trans h7
  -- b starts with a word character
  have hbhead : ∃ d bs, b = d :: bs ∧ isWordChar d = true := by
    cases cap with
    | nil => exact absurd rfl hcne'
    | cons d cs =>
      exact ⟨d, cs ++ m', by rw [hbc]; simp, hcw' d (by simp)⟩
  obtain ⟨d, bs, hbds, hdw⟩ := hbhead
  rw [hm] at hbr
  rcases suffix_append_cases hbr with hb1 | ⟨p', hp's, hp'ne, hbp⟩
  · rcases List.suffix_cons_iff.mp hb1 with hbeq | hb2
    · rw [hbds] at hbeq
      have : d = '(' := by
        have := List.cons.injEq .. |>.mp hbeq
        exact this.1
      rw [this] at hdw
      cases hdw
    · -- b is a suffix of r₂: the whole rest of the match stays inside r₂
      have hm'b : m' <:+ b := hbc ▸ List.suffix_append cap m'
      exact (hr4m'.trans hm'b).trans hb2
  · -- b starts inside the space run before '(': its head would be a space
    cases p' with
    | nil => exact absurd rfl hp'ne
    | cons pc ps =>
      rw [hbds] at hbp
      have hdp : d = pc := (List.cons.injEq .. |>.mp hbp).1
      have := hPsp pc (hp's.mem (by simp))
      rw [← hdp] at this
      rw [isPySpace_not_word this] at hdw
      cases hdw

theorem mClassLower_to_classWord {s cap r : Str} (h : mClassLower s = some (cap, r)) :
    mClassWord s = some (cap, r) := by
  unfold mClassLower at h
  obtain ⟨a, ha, h⟩ := Option.bind_eq_some.mp h
  obtain ⟨b, hb, hcap⟩ := Option.bind_eq_some.mp h
  unfold mClassWord
  rw [ha, Option.some_bind, hb, Option.some_bind]
  exact captureLowerWord_to_word hcap

theorem mDefUpperParen_to_defWord {s cap r : Str} (h : mDefUpperParen s = some (cap, r)) :
    ∃ r₂, mDefWord s = some (cap, r₂) ∧ r <:+ r₂ := by
  unfold mDefUpperParen at h
  obtain ⟨a, ha, h⟩ := Option.bind_eq_some.mp h
  obtain ⟨b, hb, h⟩ := Option.bind_eq_some.mp h
  obtain ⟨cr, hcr, h⟩ := Option.bind_eq_some.mp h
  obtain ⟨r4, hlit, heq⟩ := Option.map_eq_some'.mp h
  obtain ⟨rfl, rfl⟩ := Prod.mk.injEq .. |>.mp heq
  obtain ⟨cw, m⟩ := cr
  refine ⟨m, ?_, ?_⟩
  · unfold mDefWord
    rw [ha, Option.some_bind, hb, Option.some_bind]
    exact captureUpperWord_to_word hcr
  · have h5 : matchStar isPySpace m = ['('] ++ r4 := matchLit_eq _ _ _ hlit
    have h7 := matchStar_suffix isPySpace m
    rw [h5] at h7
    exact ((List.suffix_cons '(' r4).trans h7)

theorem mDefDoc_to_defParen {s cap r : Str} (h : mDefDoc s = some (cap, r)) :
    ∃ c₂ r₂, mDefParen s = some (c₂, r₂) ∧ r <:+ r₂ := by
  unfold mDefDoc at h
  obtain ⟨cr, hcr, h⟩ := Option.bind_eq_some.mp h
  obtain ⟨x, hx, h⟩ := Option.bind_eq_some.mp h
  obtain ⟨y, hy, h⟩ := Option.bind_eq_some.mp h
  obtain ⟨z, hz, heq⟩ := Option.map_eq_some'.mp h
  obtain ⟨rfl, rfl⟩ := Prod.mk.injEq .. |>.mp heq
  obtain ⟨cw, r₂⟩ := cr
  refine ⟨cw, r₂, hcr, ?_⟩
  have h1 : x <:+ r₂ :=
    (matchLit_suffix hx).trans (matchStar_suffix _ r₂)
  have h2 : y <:+ x := (matchLit_suffix hy).trans (matchStar_suffix _ x)
  have h3 : z <:+ y := (matchLit_suffix hz).trans (matchStar_suffix _ y)
  exact (h3.trans h2).trans h1

theorem mClassDoc_to_classWord {s cap r : Str} (h : mClassDoc s = some (cap, r)) :
    ∃ c₂ r₂, mClassWord s = some (c₂, r₂) ∧ r <:+ r₂ := by
  unfold mClassDoc at h
  obtain ⟨cr, hcr, h⟩ := Option.bind_eq_some.mp h
  obtain ⟨x, hx, h⟩ := Option.bind_eq_some.mp h
  obtain ⟨z, hz, heq⟩ := Option.map_eq_some'.mp h
  obtain ⟨rfl, rfl⟩ := Prod.mk.injEq .. |>.mp heq
  obtain ⟨cw, r₂⟩ := cr
  refine ⟨cw, r₂, hcr, ?_⟩
  have h1 : x <:+ r₂ :=
    (matchLit_suffix hx).trans (matchStar_suffix _ r₂)
  have h3 : z <:+ x := (matchLit_suffix hz).trans (matchStar_suffix _ x)
  exact h3.trans h1

theorem scan_classLower_le_classWord (s : Str) :
    (scanMatches mClassLower s).length ≤ (scanMatches mClassWord s).length := by
  refine scanCount_le_of_dominates mClassLower mClassWord ?_ ?_ ?_ ?_ s
  · intro s c₁ r₁ h
    exact ⟨c₁, r₁, mClassLower_to_classWord h, List.suffix_refl r₁⟩
  · intro t c₂ r₂ u c₁ r₁ h2 hsuf hlen h1
    exact mClassWord_barrier h2 hsuf hlen (mClassLower_to_classWord h1)
  · intro s c₁ r₁ h
    exact mClassWord_suffix (mClassLower_to_classWord h)
  · intro s c₂ r₂ h
    exact mClassWord_suffix h

theorem scan_defUpper_le_defWord (s : Str) :
    (scanMatches mDefUpperParen s).length ≤ (scanMatches mDefWord s).length := by
  refine scanCount_le_of_dominates mDefUpperParen mDefWord ?_ ?_ ?_ ?_ s
  · intro s c₁ r₁ h
    obtain ⟨r₂, h2, hs⟩ := mDefUpperParen_to_defWord h
    exact ⟨c₁, r₂, h2, hs⟩
  · intro t c₂ r₂ u c₁ r₁ h2 hsuf hlen h1
    obtain ⟨r₂', h2', hs⟩ := mDefUpperParen_to_defWord h1
    exact hs.trans (mDefWord_barrier h2 hsuf hlen h2')
  · intro s c₁ r₁ h
    obtain ⟨r₂, h2, hs⟩ := mDefUpperParen_to_defWord h
    exact hs.trans (mDefWord_suffix h2)
  · intro s c₂ r₂ h
    exact mDefWord_suffix h

theorem scan_defDoc_le_defParen (s : Str) :
    (scanMatches mDefDoc s).length ≤ (scanMatches mDefParen s).length := by
  refine scanCount_le_of_dominates mDefDoc mDefParen ?_ ?_ ?_ ?_ s
  · intro s c₁ r₁ h
    obtain ⟨c₂, r₂, h2, hs⟩ := mDefDoc_to_defParen h
    exact ⟨c₂, r₂, h2, hs⟩
  · intro t c₂ r₂ u c₁ r₁ h2 hsuf hlen h1
    obtain ⟨c₂', r₂', h2', hs⟩ := mDefDoc_to_defParen h1
    exact hs.trans (mDefParen_barrier h2 hsuf hlen h2')
  · intro s c₁ r₁ h
    obtain ⟨c₂, r₂, h2, hs⟩ := mDefDoc_to_defParen h
    exact hs.trans (mDefParen_suffix h2)
  · intro s c₂ r₂ h
    exact mDefParen_suffix h

theorem scan_classDoc_le_classWord (s : Str) :
    (scanMatches mClassDoc s).length ≤ (scanMatches mClassWord s).length := by
  refine scanCount_le_of_dominates mClassDoc mClassWord ?_ ?_ ?_ ?_ s
  · intro s c₁ r₁ h
    obtain ⟨c₂, r₂, h2, hs⟩ := mClassDoc_to_classWord h
    exact ⟨c₂, r₂, h2, hs⟩
  · intro t c₂ r₂ u c₁ r₁ h2 hsuf hlen h1
    obtain ⟨c₂', r₂', h2', hs⟩ := mClassDoc_to_classWord h1
    exact hs.trans (mClassWord_barrier h2 hsuf hlen h2')
  · intro s c₁ r₁ h
    obtain ⟨c₂, r₂, h2, hs⟩ := mClassDoc_to_classWord h
    exact hs.trans (mClassWord_suffix h2)
  · intro s c₂ r₂ h
    exact mClassWord_suffix h

end QualityChecker

namespace QualityChecker

theorem ratio100_bounds {a b : ℚ} (h0 : 0 ≤ a) (hab : a ≤ b) (hb : 0 < b) :
    0 ≤ a / b * 100 ∧ a / b * 100 ≤ 100 := by
  constructor
  · positivity
  · rw [div_mul_eq_mul_div, div_le_iff₀ hb]
    nlinarith

theorem covRatio_nonneg (d t : ℕ) : 0 ≤ (if 0 < t then (d : ℚ) / (t : ℚ) * 100 else 0) := by
  split_ifs with h
  · positivity
  · exact le_refl 0

theorem covRatio_le (d t : ℕ) (hdt : d ≤ t) :
    (if 0 < t then (d : ℚ) / (t : ℚ) * 100 else 0) ≤ 100 := by
  split_ifs with h
  · refine (ratio100_bounds ?_ ?_ ?_).2
    · positivity
    · exact_mod_cast hdt
    · exact_mod_cast h
  · norm_num

theorem doc_core (tf df tc dc : ℕ) (h1 : df ≤ tf) (h2 : dc ≤ tc) :
    0 ≤ pyRound2 (if 0 < tf + tc then
        ((if 0 < tf then (df : ℚ) / (tf : ℚ) * 100 else 0) +
         (if 0 < tc then (dc : ℚ) / (tc : ℚ) * 100 else 0)) / 2 else 0) ∧
      pyRound2 (if 0 < tf + tc then
        ((if 0 < tf then (df : ℚ) / (tf : ℚ) * 100 else 0) +
         (if 0 < tc then (dc : ℚ) / (tc : ℚ) * 100 else 0)) / 2 else 0) ≤ 100 := by
  refine pyRound2_mem_Icc ?_ ?_
  · by_cases h : 0 < tf + tc
    · rw [if_pos h]
      have ha := covRatio_nonneg df tf
      have hb := covRatio_nonneg dc tc
      linarith
    · rw [if_neg h]
  · by_cases h : 0 < tf + tc
    · rw [if_pos h]
      have ha := covRatio_le df tf h1
      have hb := covRatio_le dc tc h2
      linarith
    · rw [if_neg h]
      norm_num

theorem checkDocumentation_bounds (files : List QFile) :
    0 ≤ (checkDocumentation files).score ∧ (checkDocumentation files).score ≤ 100 := by
  have hdf : ((files.filter (fun f => f.language = ("python".toList))).map
      (fun f => scanCount mDefDoc f.content)).sum ≤
      ((files.filter (fun f => f.language = ("python".toList))).map
        (fun f => scanCount mDefParen f.content)).sum :=
    List.sum_le_sum (fun f _ => scan_defDoc_le_defParen f.content)
  have hdc : ((files.filter (fun f => f.language = ("python".toList))).map
      (fun f => scanCount mClassDoc f.content)).sum ≤
      ((files.filter (fun f => f.language = ("python".toList))).map
        (fun f => scanCount mClassWord f.content)).sum :=
    List.sum_le_sum (fun f _ => scan_classDoc_le_classWord f.content)
  simp only [checkDocumentation]
  exact doc_core _ _ _ _ hdf hdc


theorem checkTesting_bounds (files : List QFile) :
    0 ≤ (checkTesting files).score ∧ (checkTesting files).score ≤ 100 := by
  simp only [checkTesting]
  refine pyRound2_mem_Icc ?_ ?_
  · refine le_min ?_ (by norm_num)
    have hden : (0 : ℚ) < max ((files.length : ℚ) * 0.3) 1 :=
      lt_of_lt_of_le one_pos (le_max_right _ _)
    have hnum : (0 : ℚ) ≤ ((files.filter (fun f =>
        [("test_".toList), ("_test".toList), ("spec".toList), ("test/".toList)].any
          (fun ind => containsSub ind (pyLower f.path)))).length : ℚ) := by positivity
    exact mul_nonneg (div_nonneg hnum (le_of_lt hden)) (by norm_num)
  · exact min_le_right _ _

theorem checkComplexity_bounds (files : List QFile) :
    0 ≤ (checkComplexity files).score ∧ (checkComplexity files).score ≤ 100 := by
  simp only [checkComplexity]
  refine pyRound2_mem_Icc (le_max_left 0 _) (max_le (by norm_num) ?_)
  have hden : (0 : ℚ) < max (((((files.map (fun f => scanFuncBlocks f.content)).flatten).length : ℕ)) : ℚ) 1 :=
    lt_of_lt_of_le one_pos (le_max_right _ _)
  have hx : (0 : ℚ) ≤ ((((files.map (fun f => scanFuncBlocks f.content)).flatten.filterMap
      (fun nb =>
        if 10 < 1 + countWord ("if".toList) nb.2 + countWord ("for".toList) nb.2 +
            countWord ("while".toList) nb.2 + countAndOr nb.2 then
          some (nb.1, 1 + countWord ("if".toList) nb.2 + countWord ("for".toList) nb.2 +
            countWord ("while".toList) nb.2 + countAndOr nb.2)
        else none)).length : ℕ) : ℚ) /
      max (((files.map (fun f => scanFuncBlocks f.content)).flatten.length : ℕ) : ℚ) 1 * 100 := by
    refine mul_nonneg (div_nonneg (by positivity) (le_of_lt ?_)) (by norm_num)
    exact lt_of_lt_of_le one_pos (le_max_right _ _)
  linarith

theorem checkNaming_viol_le (files : List QFile) :
    (checkNamingConventions files).totalViolations ≤
      (checkNamingConventions files).totalChecks := by
  simp only [checkNamingConventions]
  rw [List.length_flatten, List.map_map]
  refine List.sum_le_sum ?_
  intro f hf
  simp only [Function.comp_apply, List.length_append, List.length_map]
  have h1 := scan_classLower_le_classWord f.content
  have h2 := scan_defUpper_le_defWord f.content
  unfold scanCount
  omega

theorem naming_core (T V : ℕ) (h : V ≤ T) :
    0 ≤ pyRound2 (((T : ℚ) - (V : ℚ)) / max (T : ℚ) 1 * 100) ∧
      pyRound2 (((T : ℚ) - (V : ℚ)) / max (T : ℚ) 1 * 100) ≤ 100 := by
  have hden : (0 : ℚ) < max (T : ℚ) 1 := lt_of_lt_of_le one_pos (le_max_right _ _)
  have h0 : (0 : ℚ) ≤ (T : ℚ) - (V : ℚ) := by
    have : (V : ℚ) ≤ (T : ℚ) := by exact_mod_cast h
    linarith
  have hle : (T : ℚ) - (V : ℚ) ≤ max (T : ℚ) 1 := by
    have : (0 : ℚ) ≤ (V : ℚ) := Nat.cast_nonneg V
    exact le_trans (by linarith) (le_max_left _ _)
  exact pyRound2_mem_Icc (ratio100_bounds h0 hle hden).1 (ratio100_bounds h0 hle hden).2

theorem checkNamingConventions_bounds (files : List QFile) :
    0 ≤ (checkNamingConventions files).score ∧
      (checkNamingConventions files).score ≤ 100 := by
  have h := checkNaming_viol_le files
  simp only [checkNamingConventions] at h ⊢
  exact naming_core _ _ h

theorem practicesForFile_snd_le (f : QFile) : (practicesForFile f).2 ≤ 4 := by
  simp only [practicesForFile]
  split_ifs <;> norm_num

theorem bp_core (cp tc : ℕ) (h : cp ≤ tc) :
    0 ≤ pyRound2 ((cp : ℚ) / max (tc : ℚ) 1 * 100) ∧
      pyRound2 ((cp : ℚ) / max (tc : ℚ) 1 * 100) ≤ 100 := by
  have hden : (0 : ℚ) < max (tc : ℚ) 1 := lt_of_lt_of_le one_pos (le_max_right _ _)
  have h0 : (0 : ℚ) ≤ (cp : ℚ) := Nat.cast_nonneg cp
  have hle : (cp : ℚ) ≤ max (tc : ℚ) 1 :=
    le_trans (by exact_mod_cast h) (le_max_left _ _)
  exact pyRound2_mem_Icc (ratio100_bounds h0 hle hden).1 (ratio100_bounds h0 hle hden).2

theorem checkBestPractices_bounds (files : List QFile) :
    0 ≤ (checkBestPractices files).score ∧ (checkBestPractices files).score ≤ 100 := by
  have hsum : ((files.map practicesForFile).map (fun r => r.2)).sum ≤ 4 * files.length := by
    rw [List.map_map]
    calc ((files.map ((fun (r : List Str × ℕ) => r.2) ∘ practicesForFile)).sum)
        ≤ (files.map (fun _ => 4)).sum :=
          List.sum_le_sum (fun f _ => practicesForFile_snd_le f)
      _ = 4 * files.length := by
          simp [List.map_const', List.sum_replicate, smul_eq_mul, Nat.mul_comm]
  simp only [checkBestPractices]
  exact bp_core _ _ hsum

theorem calculateOverallScore_bounds {d t n c b : ℚ}
    (hd : 0 ≤ d ∧ d ≤ 100) (ht : 0 ≤ t ∧ t ≤ 100) (hn : 0 ≤ n ∧ n ≤ 100)
    (hc : 0 ≤ c ∧ c ≤ 100) (hb : 0 ≤ b ∧ b ≤ 100) :
    0 ≤ calculateOverallScore d t n c b ∧ calculateOverallScore d t n c b ≤ 100 := by
  unfold calculateOverallScore
  refine pyRound2_mem_Icc ?_ ?_
  · nlinarith [hd.1, ht.1, hn.1, hc.1, hb.1]
  · nlinarith [hd.2, ht.2, hn.2, hc.2, hb.2]

/-- C9: for every input file list, each of the quality checker's five
sub-scores and the overall quality score lies in the interval [0, 100], and
the naming check's violation count never exceeds its `total_checks`
denominator (so its compliance rate is never negative). -/
theorem c9_quality_scores_in_range (files : List QFile) :
    (0 ≤ (execute files).documentation.score ∧
      (execute files).documentation.score ≤ 100) ∧
    (0 ≤ (execute files).testing.score ∧ (execute files).testing.score ≤ 100) ∧
    (0 ≤ (execute files).namingConventions.score ∧
      (execute files).namingConventions.score ≤ 100) ∧
    (0 ≤ (execute files).codeComplexity.score ∧
      (execute files).codeComplexity.score ≤ 100) ∧
    (0 ≤ (execute files).bestPractices.score ∧
      (execute files).bestPractices.score ≤ 100) ∧
    (0 ≤ (execute files).overallQualityScore ∧
      (execute files).overallQualityScore ≤ 100) ∧
    (execute files).namingConventions.totalViolations ≤
      (execute files).namingConventions.totalChecks := by
  have hd := checkDocumentation_bounds files
  have ht := checkTesting_bounds files
  have hn := checkNamingConventions_bounds files
  have hc := checkComplexity_bounds files
  have hb := checkBestPractices_bounds files
  have hov := calculateOverallScore_bounds hd ht hn hc hb
  have hviol := checkNaming_viol_le files
  simp only [execute]
  exact ⟨hd, ht, hn, hc, hb, hov, hviol⟩

end QualityChecker
